import Mathlib

/-!
# HSA offload plugin (`libomptarget/plugins/hsa/src/rtl.cpp`)

A shallow embedding of the device registry, the binary validator, the module
loader, the launch-geometry computation and the kernel dispatch of the HSA
target RTL, followed by theorems about them.

Conventions of the embedding:

* C++ `int` / `int32_t` values are `Int`s; a store that can leave the 32-bit
  range goes through `toInt32` (two's complement wrap-around).  `unsigned`
  values go through `toUInt32`, `uint64_t` through `toUInt64`.
* `std::vector<int>` is `List Int`; `v[i]` is `vget v i`, `v[i] = x` is
  `vset v i x`.  Indexing outside the vector is undefined in the source; the
  embedding reads `0` and writes nothing there, and the theorems assume the
  index is in range.
* Calls into the HSA / ATMI / libelf libraries are parameters: the outcome of
  each call (a value, or a failure) is passed in.
-/

namespace HsaRtl

/-! ## Machine integers -/

/-- Conversion to a 32-bit signed `int` (two's complement wrap-around). -/
def toInt32 (x : Int) : Int := (x + 2147483648) % 4294967296 - 2147483648

/-- Conversion to a 32-bit `unsigned`. -/
def toUInt32 (x : Int) : Int := x % 4294967296

/-- Conversion to a 64-bit `uint64_t` / `size_t`. -/
def toUInt64 (x : Int) : Int := x % 18446744073709551616

/-- Conversion to a `uint16_t`. -/
def toUInt16 (x : Int) : Int := x % 65536

/-- Conversion to an `int8_t` (two's complement wrap-around). -/
def toInt8 (x : Int) : Int := (x + 128) % 256 - 128

/-- The values an `int` can hold. -/
def InInt32 (x : Int) : Prop := -2147483648 ≤ x ∧ x ≤ 2147483647

instance (x : Int) : Decidable (InInt32 x) := by unfold InInt32; infer_instance

/-! ## Compile-time constants (lines 41-58, 138-141) -/

def TEAMS_ABSOLUTE_LIMIT : Int := 512
def THREAD_ABSOLUTE_LIMIT : Int := 1024
def MAX_NUM_TEAMS : Int := TEAMS_ABSOLUTE_LIMIT
def WAVEFRONTSIZE : Int := 64
def MAX_NUM_WAVES : Int := (MAX_NUM_TEAMS * THREAD_ABSOLUTE_LIMIT / WAVEFRONTSIZE)

/-- The expression `MAX_NUM_OMP_THREADS/TEAMS_ABSOLUTE_LIMIT` of line 359 after
macro expansion.  `MAX_NUM_THREADS` is `MAX_NUM_WAVES * WAVEFRONTSIZE` without
parentheses, and `MAX_NUM_OMP_THREADS` is `MAX_NUM_THREADS`
(`OMPTHREAD_IS_WAVEFRONT` is not defined), so the text is
`MAX_NUM_WAVES * WAVEFRONTSIZE/TEAMS_ABSOLUTE_LIMIT`. -/
def ThreadsLimit : Int := MAX_NUM_WAVES * WAVEFRONTSIZE / TEAMS_ABSOLUTE_LIMIT

def HardTeamLimit : Int := 65536
def HardThreadLimit : Int := 1024
def DefaultNumTeams : Int := 128
def DefaultNumThreads : Int := 128

/-- Modelled from the spec: the success status of the boundary operations.
The macro `OFFLOAD_SUCCESS` is declared in `omptarget.h`, which is not among
the sources; there it is `(0)`. -/
def OFFLOAD_SUCCESS : Int := 0
/-- Modelled from the spec: the failure status of the boundary operations.
The macro `OFFLOAD_FAIL` is declared in `omptarget.h`, which is not among the
sources; there it is `(~0)`. -/
def OFFLOAD_FAIL : Int := -1

/-- Enumerator `SPMD` of `ExecutionModeType`. -/
def SPMD : Int := 0
/-- Enumerator `GENERIC` of `ExecutionModeType`. -/
def GENERIC : Int := 1
/-- Enumerator `NONE` of `ExecutionModeType`. -/
def NONE : Int := 2

/-! ## Data model -/

/-- A `void *` held in an offload entry: a numeric address (`raw 0` is the null
pointer), or the address of the `i`-th element of `KernelsList` (a `std::list`,
whose elements never move). -/
inductive AddrTy where
  | raw (a : Nat)
  | kernel (i : Nat)
  deriving DecidableEq, Repr

/-- The fields of `__tgt_offload_entry` that the plugin reads or writes. -/
structure tgt_offload_entry where
  addr : AddrTy
  name : String
  size : Nat
  deriving DecidableEq, Repr

/-- The `__tgt_target_table`: `EntriesBegin` / `EntriesEnd` point into the
`Entries` vector of the same device; they are kept as indices, `none` being the
null pointer. -/
structure tgt_target_table where
  EntriesBegin : Option Nat
  EntriesEnd : Option Nat
  deriving DecidableEq, Repr

/-- Entries table of one device (lines 82-85). -/
structure FuncOrGblEntryTy where
  Table : tgt_target_table
  Entries : List tgt_offload_entry
  deriving DecidableEq, Repr

/-- A kernel and its flags (lines 95-105).  `Func` is the malloc-ed copy of the
kernel name, `ExecutionMode` an `int8_t`. -/
structure KernelTy where
  Func : String
  ExecutionMode : Int
  deriving DecidableEq, Repr

/-- The part of `RTLDeviceInfoTy` (lines 112-251) that the modelled functions
touch. -/
structure RTLDeviceInfoTy where
  FuncGblEntries : List FuncOrGblEntryTy
  NumberOfDevices : Nat
  GroupsPerDevice : List Int
  ThreadsPerGroup : List Int
  WavefrontSize : List Int
  NumTeams : List Int
  NumThreads : List Int
  EnvNumTeams : Int
  EnvTeamLimit : Int
  deriving DecidableEq, Repr

/-- Read `v[i]` of a `std::vector<int>`. -/
def vget (v : List Int) (i : Nat) : Int := v.getD i 0

/-- Write `v[i] = x` of a `std::vector<int>`. -/
def vset (v : List Int) (i : Nat) (x : Int) : List Int := v.set i x

/-- The state the constructor leaves (lines 193-251) when `atmi_init` succeeds
and reports `n` GPU devices; `envTeamLimit` and `envNumTeams` are the parsed
values of `OMP_TEAM_LIMIT` and `OMP_NUM_TEAMS` (`none` when the variable is not
set, which the constructor records as `-1`). -/
def RTLDeviceInfoTy.init (n : Nat) (envTeamLimit envNumTeams : Option Int) :
    RTLDeviceInfoTy where
  FuncGblEntries := List.replicate n ⟨⟨none, none⟩, []⟩
  NumberOfDevices := n
  GroupsPerDevice := List.replicate n DefaultNumTeams
  ThreadsPerGroup := List.replicate n DefaultNumThreads
  WavefrontSize := List.replicate n 0
  NumTeams := List.replicate n 0
  NumThreads := List.replicate n 0
  EnvNumTeams := match envNumTeams with
    | some v => v
    | none => -1
  EnvTeamLimit := match envTeamLimit with
    | some v => v
    | none => -1

/-- Every per-device vector has one slot per device (the `resize` calls of
lines 209-216). -/
def RTLDeviceInfoTy.Sized (D : RTLDeviceInfoTy) : Prop :=
  D.FuncGblEntries.length = D.NumberOfDevices ∧
  D.GroupsPerDevice.length = D.NumberOfDevices ∧
  D.ThreadsPerGroup.length = D.NumberOfDevices ∧
  D.WavefrontSize.length = D.NumberOfDevices ∧
  D.NumTeams.length = D.NumberOfDevices ∧
  D.NumThreads.length = D.NumberOfDevices

instance (D : RTLDeviceInfoTy) : Decidable D.Sized := by
  unfold RTLDeviceInfoTy.Sized; infer_instance

/-! ## Offload-entry table operations (lines 143-191) -/

/-- Method `addOffloadEntry`. -/
def RTLDeviceInfoTy.addOffloadEntry (D : RTLDeviceInfoTy) (device_id : Nat)
    (entry : tgt_offload_entry) : RTLDeviceInfoTy :=
  let E := D.FuncGblEntries.getD device_id ⟨⟨none, none⟩, []⟩
  { D with FuncGblEntries :=
      D.FuncGblEntries.set device_id { E with Entries := E.Entries ++ [entry] } }

/-- Method `findOffloadEntry`. -/
def RTLDeviceInfoTy.findOffloadEntry (D : RTLDeviceInfoTy) (device_id : Nat)
    (addr : AddrTy) : Bool :=
  let E := D.FuncGblEntries.getD device_id ⟨⟨none, none⟩, []⟩
  E.Entries.any (fun e => e.addr == addr)

/-- Method `getOffloadEntriesTable`: the returned pointer is `none` (null) when
the device has no entry, else it points to the device's `Table`, whose bounds
were just refreshed. -/
def RTLDeviceInfoTy.getOffloadEntriesTable (D : RTLDeviceInfoTy) (device_id : Nat) :
    Option tgt_target_table × RTLDeviceInfoTy :=
  let E := D.FuncGblEntries.getD device_id ⟨⟨none, none⟩, []⟩
  let size := E.Entries.length
  if size = 0 then (none, D)
  else
    let T : tgt_target_table := ⟨some 0, some (size - 1 + 1)⟩
    (some T, { D with FuncGblEntries := D.FuncGblEntries.set device_id { E with Table := T } })

/-- Method `clearOffloadEntriesTable`. -/
def RTLDeviceInfoTy.clearOffloadEntriesTable (D : RTLDeviceInfoTy) (device_id : Nat) :
    RTLDeviceInfoTy :=
  { D with FuncGblEntries := D.FuncGblEntries.set device_id ⟨⟨none, none⟩, []⟩ }

/-- The entries of a device's table. -/
def RTLDeviceInfoTy.entriesOf (D : RTLDeviceInfoTy) (device_id : Nat) :
    List tgt_offload_entry :=
  (D.FuncGblEntries.getD device_id ⟨⟨none, none⟩, []⟩).Entries

/-! ## `__tgt_rtl_init_device` (lines 346-459) -/

/-- Outcome of the three `hsa_agent_get_info` calls on the device's agent:
`none` is a status other than `HSA_STATUS_SUCCESS`, `some v` the value written
(`compute_unit` and `wavefront_size` are `uint32_t`, `workgroup_max_dim[0]` is a
`uint16_t`). -/
structure HsaAgentInfo where
  compute_unit : Option Nat
  workgroup_max_dim0 : Option Nat
  wavefront_size : Option Nat
  deriving DecidableEq, Repr

/-- Function `__tgt_rtl_init_device`: the status it returns and the registry
it leaves.  `G0 .. G2`, `T0 .. T1`, `W` and `N0 .. N2` are the successive values
of `GroupsPerDevice[device_id]`, `ThreadsPerGroup[device_id]`,
`WavefrontSize[device_id]` and `NumTeams[device_id]`; the last assignment to
`NumTeams` is the one of line 453. -/
def tgt_rtl_init_device (agent : HsaAgentInfo) (DeviceInfo : RTLDeviceInfoTy)
    (device_id : Nat) : Int × RTLDeviceInfoTy :=
  let GroupsLimit : Int := TEAMS_ABSOLUTE_LIMIT
  let ThreadsLimit : Int := ThreadsLimit
  -- Get number of Compute Unit
  let G0 : Int := match agent.compute_unit with
    | some compute_unit => toInt32 (toUInt32 compute_unit)
    | none => GroupsLimit
  let G1 : Int := if G0 > GroupsLimit ∨ G0 = 0 then GroupsLimit else G0
  -- Get thread limit
  let T0 : Int := match agent.workgroup_max_dim0 with
    | some dim0 => toUInt16 dim0
    | none => ThreadsLimit
  let T1 : Int := if T0 > ThreadsLimit ∨ T0 = 0 then ThreadsLimit else T0
  -- Get wavefront size
  let W : Int := match agent.wavefront_size with
    | some wavefront_size => toInt32 (toUInt32 wavefront_size)
    | none => WAVEFRONTSIZE
  -- Adjust teams to the env variables
  let G2 : Int :=
    if DeviceInfo.EnvTeamLimit > 0 ∧ G1 > DeviceInfo.EnvTeamLimit then DeviceInfo.EnvTeamLimit
    else G1
  -- Set default number of teams
  let N0 : Int := if DeviceInfo.EnvNumTeams > 0 then DeviceInfo.EnvNumTeams else DefaultNumTeams
  let N1 : Int := if N0 > G2 then G2 else N0
  -- Set default number of threads
  let NumThreads : Int := DefaultNumThreads
  let N2 : Int := if NumThreads > T1 then T1 else N1
  (OFFLOAD_SUCCESS,
   { DeviceInfo with
     GroupsPerDevice := vset DeviceInfo.GroupsPerDevice device_id G2
     ThreadsPerGroup := vset DeviceInfo.ThreadsPerGroup device_id T1
     WavefrontSize := vset DeviceInfo.WavefrontSize device_id W
     NumTeams := vset DeviceInfo.NumTeams device_id N2
     NumThreads := vset DeviceInfo.NumThreads device_id NumThreads })

/-! ## Launch geometry of `__tgt_rtl_run_target_team_region` (lines 772-839) -/

/-- The local `threadsPerGroup` after lines 772-799.  The `-=` and `+=` on an
`int` wrap around in the embedding. -/
def threadsPerGroup (DeviceInfo : RTLDeviceInfoTy) (device_id : Nat) (KernelInfo : KernelTy)
    (thread_limit : Int) : Int :=
  let t0 : Int :=
    if thread_limit > 0 then thread_limit
    else
      let t := vget DeviceInfo.NumThreads device_id
      if KernelInfo.ExecutionMode = GENERIC then
        toInt32 (t - vget DeviceInfo.WavefrontSize device_id)
      else t
  -- Add master warp if necessary
  let t1 : Int :=
    if KernelInfo.ExecutionMode = GENERIC then
      toInt32 (t0 + vget DeviceInfo.WavefrontSize device_id)
    else t0
  if t1 > vget DeviceInfo.ThreadsPerGroup device_id then
    vget DeviceInfo.ThreadsPerGroup device_id
  else t1

/-- The local `unsigned num_groups` after lines 816-839; `none` when the
division of line 821 divides by zero.  `loop_tripcount` is a `uint64_t`; the
`int threadsPerGroup` is converted to `uint64_t` for the division and the
64-bit result is converted to `unsigned` by the assignment. -/
def num_groups (DeviceInfo : RTLDeviceInfoTy) (device_id : Nat) (KernelInfo : KernelTy)
    (team_num thread_limit : Int) (loop_tripcount : Nat) : Option Int :=
  let threadsPerGroup := threadsPerGroup DeviceInfo device_id KernelInfo thread_limit
  if team_num ≤ 0 then
    if loop_tripcount > 0 ∧ DeviceInfo.EnvNumTeams < 0 then
      if KernelInfo.ExecutionMode = SPMD then
        -- round up to the nearest integer
        if toUInt64 threadsPerGroup = 0 then none
        else
          some (toUInt32 (toUInt64
            (toUInt64 ((loop_tripcount : Int) - 1) / toUInt64 threadsPerGroup + 1)))
      else some (toUInt32 loop_tripcount)
    else some (toUInt32 (vget DeviceInfo.NumTeams device_id))
  else if team_num > vget DeviceInfo.GroupsPerDevice device_id then
    some (toUInt32 (vget DeviceInfo.GroupsPerDevice device_id))
  else some (toUInt32 team_num)

/-! ## The image as seen through libelf -/

/-- Result of `elf_kind`. -/
inductive Elf_Kind where
  | ELF_K_NONE
  | ELF_K_AR
  | ELF_K_COFF
  | ELF_K_ELF
  deriving DecidableEq, Repr

/-- What the libelf accessors report about an ELF handle: its kind, and for
each of `elf64_getehdr` / `elf32_getehdr` either a null pointer (`none`) or the
`e_machine` field of the header (`some`). -/
structure Elf where
  kind : Elf_Kind
  eh64 : Option Nat
  eh32 : Option Nat
  deriving DecidableEq, Repr

/-- The `__tgt_device_image`: `elf` is what `elf_memory` returns on the bytes
`ImageStart .. ImageEnd` (`none` is the null handle), `Entries` the host entries
`EntriesBegin .. EntriesEnd`. -/
structure tgt_device_image where
  elf : Option Elf
  Entries : List tgt_offload_entry
  deriving DecidableEq, Repr

/-! ## `__tgt_rtl_is_valid_binary` (lines 278-340) -/

/-- Function `__tgt_rtl_is_valid_binary`.  `elf_version_ok` is false when
`elf_version(EV_CURRENT)` returns `EV_NONE`. -/
def tgt_rtl_is_valid_binary (elf_version_ok : Bool) (image : tgt_device_image) : Int :=
  -- Is the library version incompatible with the header file?
  if !elf_version_ok then 0
  else
    -- Obtain elf handler
    match image.elf with
    | none => 0
    | some e =>
      -- Check if ELF is the right kind.
      if e.kind ≠ Elf_Kind.ELF_K_ELF then 0
      else
        match e.eh64, e.eh32 with
        | none, none => 0
        | some m64, none =>
          let MachineID := toUInt16 m64
          if MachineID = 0 ∨ MachineID = 44890 ∨ MachineID = 44891 then 1
          else if MachineID = 224 then 1
          else 0
        | none, some m32 =>
          let MachineID := toUInt16 m32
          if MachineID = 0 ∨ MachineID = 44890 ∨ MachineID = 44891 then 1
          else if MachineID = 224 then 1
          else 0
        | some _, some _ => 0

/-! ## `__tgt_rtl_load_binary` (lines 461-686) -/

/-- The ATMI calls the loader makes, after the module was registered:
`symbol_info device_id name` is `atmi_interop_hsa_get_symbol_info` on the GPU
memory place of `device_id` (`none` is a status other than
`ATMI_STATUS_SUCCESS`, `some (ptr, size)` the address and the `uint32_t` size);
`memcpy_d2h ptr` is the one-byte `atmi_memcpy` from the device (`some b` the
byte read); `memcpy_h2d ptr` tells whether the `atmi_memcpy` of the device
environment to `ptr` succeeds. -/
structure AtmiDevice where
  symbol_info : Nat → String → Option (Nat × Nat)
  memcpy_d2h : Nat → Option Nat
  memcpy_h2d : Nat → Bool

/-- The loop of lines 546-639 over the host entries that are still to be
visited.  The Boolean is false when the loop left the function through one of
its `return NULL`. -/
def loadEntries (dev : AtmiDevice) (device_id : Nat) :
    List tgt_offload_entry → RTLDeviceInfoTy → List KernelTy →
      Bool × RTLDeviceInfoTy × List KernelTy
  | [], DeviceInfo, KernelsList => (true, DeviceInfo, KernelsList)
  | e :: rest, DeviceInfo, KernelsList =>
    if e.addr = AddrTy.raw 0 then
      loadEntries dev device_id rest (DeviceInfo.addOffloadEntry device_id e) KernelsList
    else if e.size ≠ 0 then
      match dev.symbol_info device_id e.name with
      | none => (false, DeviceInfo, KernelsList)
      | some (varptr, varsize) =>
        if toUInt32 varsize ≠ e.size then (false, DeviceInfo, KernelsList)
        else
          loadEntries dev device_id rest
            (DeviceInfo.addOffloadEntry device_id { e with addr := AddrTy.raw varptr })
            KernelsList
    else
      let ExecModeName := e.name ++ "_exec_mode"
      match dev.symbol_info device_id ExecModeName with
      | some (ExecModePtr, varsize) =>
        if toUInt32 varsize ≠ 1 then (false, DeviceInfo, KernelsList)
        else
          match dev.memcpy_d2h ExecModePtr with
          | none => (false, DeviceInfo, KernelsList)
          | some b =>
            let ExecModeVal := toInt8 b
            if ExecModeVal < 0 ∨ ExecModeVal > 1 then (false, DeviceInfo, KernelsList)
            else
              loadEntries dev device_id rest
                (DeviceInfo.addOffloadEntry device_id
                  { e with addr := AddrTy.kernel KernelsList.length })
                (KernelsList ++ [⟨e.name, ExecModeVal⟩])
      | none =>
        loadEntries dev device_id rest
          (DeviceInfo.addOffloadEntry device_id
            { e with addr := AddrTy.kernel KernelsList.length })
          (KernelsList ++ [⟨e.name, SPMD⟩])

/-- One iteration of the loop of lines 546-639 on the host entry `e` while
`KernelsList` holds `n` kernels: `none` when the iteration leaves through a
`return NULL`, else the entry it appends to the device's table and the kernel
records it appends to `KernelsList`.  `loadEntries` is this step repeated
(`loadEntries_cons`). -/
def loadEntry (dev : AtmiDevice) (device_id : Nat) (n : Nat) (e : tgt_offload_entry) :
    Option (tgt_offload_entry × List KernelTy) :=
  if e.addr = AddrTy.raw 0 then some (e, [])
  else if e.size ≠ 0 then
    match dev.symbol_info device_id e.name with
    | none => none
    | some (varptr, varsize) =>
      if toUInt32 varsize ≠ e.size then none
      else some ({ e with addr := AddrTy.raw varptr }, [])
  else
    match dev.symbol_info device_id (e.name ++ "_exec_mode") with
    | some (ExecModePtr, varsize) =>
      if toUInt32 varsize ≠ 1 then none
      else
        match dev.memcpy_d2h ExecModePtr with
        | none => none
        | some b =>
          if toInt8 b < 0 ∨ toInt8 b > 1 then none
          else some ({ e with addr := AddrTy.kernel n }, [⟨e.name, toInt8 b⟩])
    | none => some ({ e with addr := AddrTy.kernel n }, [⟨e.name, SPMD⟩])

/-- The table entry `a` stands for the host entry `e`: it has its name and its
size, and it is `e` itself when the host address is null. -/
def Resolves (e a : tgt_offload_entry) : Prop :=
  a.name = e.name ∧ a.size = e.size ∧ (e.addr = AddrTy.raw 0 → a = e)

instance (e a : tgt_offload_entry) : Decidable (Resolves e a) := by
  unfold Resolves; infer_instance

/-- Lines 471-521: the header check of the loader; `none` when it returns 0,
else the value of `useBrig`. -/
def loadHeader (image : tgt_device_image) : Option Int :=
  match image.elf with
  | none => none
  | some elfP =>
    if elfP.kind ≠ Elf_Kind.ELF_K_ELF then none
    else
      match elfP.eh64, elfP.eh32 with
      | some m64, none =>
        let MachineID := toUInt16 m64
        if MachineID = 0 ∨ MachineID = 44890 ∨ MachineID = 44891 then some 1
        else if MachineID = 224 then some 0
        else none
      | none, some m32 =>
        let MachineID := toUInt16 m32
        if MachineID = 0 ∨ MachineID = 44890 ∨ MachineID = 44891 then some 1
        else if MachineID = 224 then some 0
        else none
      | _, _ => none

/-- Lines 641-683: sending the device environment; false when it returns
`NULL`.  `sizeofDeviceEnv` is `sizeof(omptarget_device_environmentTy)`, a type
declared outside this file. -/
def sendDeviceEnvironment (dev : AtmiDevice) (sizeofDeviceEnv : Nat) (device_id : Nat) :
    Bool :=
  match dev.symbol_info device_id "omptarget_device_environment" with
  | some (device_env_Ptr, varsize) =>
    if toUInt32 varsize ≠ sizeofDeviceEnv then false
    else if !dev.memcpy_h2d device_env_Ptr then false
    else true
  | none => true

/-- Function `__tgt_rtl_load_binary`: the returned table pointer (`none` is
null), the registry and the kernel list it leaves. -/
def tgt_rtl_load_binary (dev : AtmiDevice) (sizeofDeviceEnv : Nat)
    (DeviceInfo : RTLDeviceInfoTy) (KernelsList : List KernelTy)
    (device_id : Nat) (image : tgt_device_image) :
    Option tgt_target_table × RTLDeviceInfoTy × List KernelTy :=
  let D0 := DeviceInfo.clearOffloadEntriesTable device_id
  match loadHeader image with
  | none => (none, D0, KernelsList)
  | some _ =>
    match loadEntries dev device_id image.Entries D0 KernelsList with
    | (false, D1, K1) => (none, D1, K1)
    | (true, D1, K1) =>
      if !sendDeviceEnvironment dev sizeofDeviceEnv device_id then (none, D1, K1)
      else
        let r := D1.getOffloadEntriesTable device_id
        (r.1, r.2, K1)

/-- Some hard error of the loader is met on the image: the header check
returns 0, or the iteration on some host entry returns `NULL` (missing global,
size mismatch, `_exec_mode` of the wrong size, failed copy, invalid value), or
sending the device environment returns `NULL`. -/
def hardError (dev : AtmiDevice) (sizeofDeviceEnv : Nat) (device_id : Nat)
    (image : tgt_device_image) : Prop :=
  loadHeader image = none ∨
  (∃ e ∈ image.Entries, loadEntry dev device_id 0 e = none) ∨
  sendDeviceEnvironment dev sizeofDeviceEnv device_id = false

instance (dev : AtmiDevice) (sizeofDeviceEnv : Nat) (device_id : Nat)
    (image : tgt_device_image) : Decidable (hardError dev sizeofDeviceEnv device_id image) := by
  unfold hardError; infer_instance

/-! ## Dispatch in `__tgt_rtl_run_target_team_region` (lines 746-768, 841-866) -/

/-- The vector `arg_sizes` after its construction with `arg_num` zeroed slots
(line 760) and the loop of lines 763-767, which stores `sizeof(void *)` in the
slots `0 .. arg_num - 1` in turn. -/
def arg_sizes_loop (sizeof_ptr : Nat) (arg_num : Nat) : List Nat :=
  (List.range arg_num).foldl (fun v i => v.set i sizeof_ptr) (List.replicate arg_num 0)

/-- The index of line 768: `arg_num - 1` is computed as an `int` and converted
to the `size_t` that `operator[]` takes. -/
def sentinel_index (arg_num : Int) : Int := toUInt64 (toInt32 (arg_num - 1))

/-- The vector `arg_sizes` after line 768; `none` when the behaviour is not
defined: a negative `arg_num` makes the constructor of line 759 throw, and an
index outside the vector makes line 768 write out of bounds. -/
def arg_sizes (sizeof_ptr sizeof_int : Nat) (arg_num : Int) : Option (List Nat) :=
  if arg_num < 0 then none
  else
    let v := arg_sizes_loop sizeof_ptr arg_num.toNat
    if sentinel_index arg_num < v.length then
      some (v.set (sentinel_index arg_num).toNat sizeof_int)
    else none

/-- Modelled from the spec: the launch parameters (`atmi_lparm_t`, declared in
`atmi.h`, which is not among the sources) that lines 851-857 fill: total
work-items, group dimension, the synchronous and groupable flags, the kernel id
and the device of the place. -/
structure atmi_lparm_t where
  gridDim0 : Int
  groupDim0 : Int
  synchronous : Bool
  groupable : Bool
  kernel_id : Int
  place : Nat
  deriving DecidableEq, Repr

/-- What `atmi_task_launch` receives: the launch parameters and the kernel
created at lines 848-849 (its name and the sizes of its arguments). -/
structure LaunchTy where
  lparm : atmi_lparm_t
  kernel_name : String
  arg_sizes : List Nat
  deriving DecidableEq, Repr

/-- Function `__tgt_rtl_run_target_team_region`: the status it returns and the
launch it submits; `none` when its behaviour is not defined (`arg_sizes`, or the
division by zero of line 821).  `atmi_task_launch` tells whether the
submission of a launch succeeds; `KernelInfo` is the record `tgt_entry_ptr`
points to; the argument pointers themselves are not modelled. -/
def tgt_rtl_run_target_team_region (atmi_task_launch : LaunchTy → Bool)
    (sizeof_ptr sizeof_int : Nat) (DeviceInfo : RTLDeviceInfoTy) (device_id : Nat)
    (KernelInfo : KernelTy) (arg_count team_num thread_limit : Int) (loop_tripcount : Nat) :
    Option (Int × LaunchTy) :=
  let arg_num := arg_count
  match arg_sizes sizeof_ptr sizeof_int arg_num with
  | none => none
  | some sizes =>
    let threadsPerGroup := threadsPerGroup DeviceInfo device_id KernelInfo thread_limit
    match num_groups DeviceInfo device_id KernelInfo team_num thread_limit loop_tripcount with
    | none => none
    | some num_groups =>
      let kernel_name := KernelInfo.Func
      let GPU_IMPL : Int := 42
      let lparm : atmi_lparm_t :=
        { gridDim0 := toUInt32 (num_groups * toUInt32 threadsPerGroup)
          groupDim0 := threadsPerGroup
          synchronous := true
          groupable := false
          kernel_id := GPU_IMPL
          place := device_id }
      let _handle := atmi_task_launch ⟨lparm, kernel_name, sizes⟩
      some (OFFLOAD_SUCCESS, ⟨lparm, kernel_name, sizes⟩)

/-- Function `__tgt_rtl_run_target_region` (lines 868-877). -/
def tgt_rtl_run_target_region (atmi_task_launch : LaunchTy → Bool)
    (sizeof_ptr sizeof_int : Nat) (DeviceInfo : RTLDeviceInfoTy) (device_id : Nat)
    (KernelInfo : KernelTy) (arg_num : Int) : Option (Int × LaunchTy) :=
  let team_num : Int := 1
  let thread_limit : Int := 0
  tgt_rtl_run_target_team_region atmi_task_launch sizeof_ptr sizeof_int DeviceInfo device_id
    KernelInfo arg_num team_num thread_limit 0

/-! # Theorems -/

/-! ## Vectors -/

theorem vget_vset_self (v : List Int) (i : Nat) (x : Int) (h : i < v.length) :
    vget (vset v i x) i = x := by
  simp [vget, vset, List.getD_eq_getElem?_getD, h]

theorem vget_vset_ne (v : List Int) (i j : Nat) (x : Int) (h : i ≠ j) :
    vget (vset v i x) j = vget v j := by
  simp [vget, vset, List.getD_eq_getElem?_getD, List.getElem?_set_ne h]

theorem length_vset (v : List Int) (i : Nat) (x : Int) : (vset v i x).length = v.length := by
  simp [vset]

theorem ThreadsLimit_eq : ThreadsLimit = 1024 := by decide

/-- After `__tgt_rtl_init_device` the thread limit of the device is in `1 .. 1024`. -/
theorem init_ThreadsPerGroup_bounds (agent : HsaAgentInfo) (D : RTLDeviceInfoTy) (id : Nat)
    (hid : id < D.ThreadsPerGroup.length) :
    1 ≤ vget (tgt_rtl_init_device agent D id).2.ThreadsPerGroup id ∧
      vget (tgt_rtl_init_device agent D id).2.ThreadsPerGroup id ≤ 1024 := by
  rcases agent with ⟨cu, wg, wf⟩
  cases wg <;>
    simp only [tgt_rtl_init_device, vget_vset_self _ _ _ hid, ThreadsLimit_eq, toUInt16] <;>
    split_ifs <;> omega

/-- After `__tgt_rtl_init_device` the group limit of the device is in `1 .. 512`, when the
compute-unit count that was read (if any) fits an `int`. -/
theorem init_GroupsPerDevice_bounds (agent : HsaAgentInfo) (D : RTLDeviceInfoTy) (id : Nat)
    (hid : id < D.GroupsPerDevice.length)
    (hcu : ∀ c, agent.compute_unit = some c → c < 2147483648) :
    1 ≤ vget (tgt_rtl_init_device agent D id).2.GroupsPerDevice id ∧
      vget (tgt_rtl_init_device agent D id).2.GroupsPerDevice id ≤ 512 := by
  rcases agent with ⟨cu, wg, wf⟩
  cases cu with
  | none =>
    simp only [tgt_rtl_init_device, vget_vset_self _ _ _ hid, TEAMS_ABSOLUTE_LIMIT]
    split_ifs <;> omega
  | some c =>
    have hc := hcu c rfl
    simp only [tgt_rtl_init_device, vget_vset_self _ _ _ hid, TEAMS_ABSOLUTE_LIMIT, toInt32,
      toUInt32]
    split_ifs <;> omega

/-- The default team count left by `__tgt_rtl_init_device`, in terms of the two limits it
leaves. -/
theorem init_NumTeams_eq (agent : HsaAgentInfo) (D : RTLDeviceInfoTy) (id : Nat)
    (hs : D.Sized) (hid : id < D.NumberOfDevices) :
    vget (tgt_rtl_init_device agent D id).2.NumTeams id =
      if 128 > vget (tgt_rtl_init_device agent D id).2.ThreadsPerGroup id then
        vget (tgt_rtl_init_device agent D id).2.ThreadsPerGroup id
      else if (if D.EnvNumTeams > 0 then D.EnvNumTeams else 128) >
          vget (tgt_rtl_init_device agent D id).2.GroupsPerDevice id then
        vget (tgt_rtl_init_device agent D id).2.GroupsPerDevice id
      else (if D.EnvNumTeams > 0 then D.EnvNumTeams else 128) := by
  obtain ⟨h1, h2, h3, h4, h5, h6⟩ := hs
  have hid2 : id < D.GroupsPerDevice.length := by omega
  have hid3 : id < D.ThreadsPerGroup.length := by omega
  have hid5 : id < D.NumTeams.length := by omega
  simp only [tgt_rtl_init_device, vget_vset_self _ _ _ hid2, vget_vset_self _ _ _ hid3,
    vget_vset_self _ _ _ hid5, DefaultNumTeams, DefaultNumThreads]

/-- The default thread count left by `__tgt_rtl_init_device` is the compiled default. -/
theorem init_NumThreads_eq (agent : HsaAgentInfo) (D : RTLDeviceInfoTy) (id : Nat)
    (hid : id < D.NumThreads.length) :
    vget (tgt_rtl_init_device agent D id).2.NumThreads id = 128 := by
  simp only [tgt_rtl_init_device, vget_vset_self _ _ _ hid, DefaultNumThreads]

/-- `__tgt_rtl_init_device` does not touch the environment overrides. -/
theorem init_EnvNumTeams (agent : HsaAgentInfo) (D : RTLDeviceInfoTy) (id : Nat) :
    (tgt_rtl_init_device agent D id).2.EnvNumTeams = D.EnvNumTeams := rfl

/-! ## Group count against the device limit -/

/-- C1, as stated, fails: on a device initialised with every hardware query failing and no
environment override (group limit 512, thread limit 1024), an SPMD launch with no team count,
no thread limit and a trip count of 1000000 gets `((1000000 - 1) / 128) + 1 = 7813` groups,
and a GENERIC launch gets 1000000 groups: both exceed the device's group limit. -/
theorem C1_counterexample :
    num_groups (tgt_rtl_init_device ⟨none, none, none⟩ (RTLDeviceInfoTy.init 1 none none) 0).2
        0 ⟨"kernel", SPMD⟩ 0 0 1000000 = some 7813 ∧
      num_groups (tgt_rtl_init_device ⟨none, none, none⟩ (RTLDeviceInfoTy.init 1 none none) 0).2
        0 ⟨"kernel", GENERIC⟩ 0 0 1000000 = some 1000000 ∧
      vget (tgt_rtl_init_device ⟨none, none, none⟩
        (RTLDeviceInfoTy.init 1 none none) 0).2.GroupsPerDevice 0 = 512 ∧
      ¬ ((7813 : Int) ≤ 512) := by
  decide

/-- C1, amended: on a device state produced by `__tgt_rtl_init_device` whose compute-unit
query failed or returned a count that fits an `int`, the group count is at most
`GroupsPerDevice[device_id]` when the requested team count is positive, and when the default
team count is used (`team_num <= 0` with a zero trip count or `EnvNumTeams >= 0`) on a
device whose thread limit is at least the default thread count 128. -/
theorem C1_group_count_within_limit (agent : HsaAgentInfo) (D : RTLDeviceInfoTy) (id : Nat)
    (K : KernelTy) (team_num thread_limit : Int) (loop_tripcount : Nat)
    (hs : D.Sized) (hid : id < D.NumberOfDevices)
    (hcu : ∀ c, agent.compute_unit = some c → c < 2147483648)
    (hbranch : 0 < team_num ∨
      (team_num ≤ 0 ∧ (loop_tripcount = 0 ∨ 0 ≤ D.EnvNumTeams) ∧
        128 ≤ vget (tgt_rtl_init_device agent D id).2.ThreadsPerGroup id)) :
    ∃ g, num_groups (tgt_rtl_init_device agent D id).2 id K team_num thread_limit
        loop_tripcount = some g ∧
      g ≤ vget (tgt_rtl_init_device agent D id).2.GroupsPerDevice id := by
  have hG := init_GroupsPerDevice_bounds agent D id (by rw [hs.2.1]; exact hid) hcu
  have hN := init_NumTeams_eq agent D id hs hid
  have hE := init_EnvNumTeams agent D id
  generalize (tgt_rtl_init_device agent D id).2 = D' at hG hN hE hbranch ⊢
  rcases hbranch with ht | ⟨ht, htrip, hT⟩
  · unfold num_groups
    simp only [show ¬ team_num ≤ 0 by omega, if_false]
    split_ifs with h
    · exact ⟨_, rfl, by simp only [toUInt32]; omega⟩
    · exact ⟨_, rfl, by simp only [toUInt32]; omega⟩
  · unfold num_groups
    have hcond : ¬ (loop_tripcount > 0 ∧ D'.EnvNumTeams < 0) := by
      rw [hE]; omega
    simp only [ht, if_true, hcond, if_false]
    refine ⟨_, rfl, ?_⟩
    rw [hN]
    simp only [toUInt32]
    split_ifs <;> omega

/-- C1 (amended) at a concrete launch: 1000 teams requested on a device with 4 compute
units. -/
theorem C1_group_count_within_limit_witness :
    ∃ g, num_groups (tgt_rtl_init_device ⟨some 4, none, none⟩
        (RTLDeviceInfoTy.init 1 none none) 0).2 0 ⟨"kernel", SPMD⟩ 1000 0 0 = some g ∧
      g ≤ vget (tgt_rtl_init_device ⟨some 4, none, none⟩
        (RTLDeviceInfoTy.init 1 none none) 0).2.GroupsPerDevice 0 :=
  C1_group_count_within_limit ⟨some 4, none, none⟩ (RTLDeviceInfoTy.init 1 none none) 0
    ⟨"kernel", SPMD⟩ 1000 0 0 (by decide) (by decide)
    (by intro c hc; cases hc; decide) (Or.inl (by decide))

/-! ## Requested team count -/

/-- C2, as stated, fails for a negative group limit: a compute-unit query that returns
`0xFFFFFFFF` is stored in the `int` limit as `-1` (it is neither above 512 nor 0), and a
request for 5 teams then takes the branch `team_num > GroupsPerDevice` and stores `-1` in the
`unsigned num_groups`, which becomes 4294967295, not `min(5, -1) = -1`. -/
theorem C2_counterexample :
    vget (tgt_rtl_init_device ⟨some 4294967295, none, none⟩
        (RTLDeviceInfoTy.init 1 none none) 0).2.GroupsPerDevice 0 = -1 ∧
      num_groups (tgt_rtl_init_device ⟨some 4294967295, none, none⟩
        (RTLDeviceInfoTy.init 1 none none) 0).2 0 ⟨"kernel", SPMD⟩ 5 0 0 = some 4294967295 ∧
      min (5 : Int) (-1) = -1 ∧ (4294967295 : Int) ≠ -1 := by
  decide

/-- C2, amended: with a positive requested team count `t` and group limit
`L = GroupsPerDevice[device_id]`, the group count is `t` when `t <= L` and the limit `L`
as stored in the `unsigned num_groups` (`L` modulo `2^32`) when `t > L`, whatever the
kernel, the thread limit, the trip count and the environment override; for every limit
`L >= 0` this is `min t L`. -/
theorem C2_requested_team_count (D : RTLDeviceInfoTy) (id : Nat) (K : KernelTy)
    (t thread_limit : Int) (loop_tripcount : Nat) (ht : 0 < t) (ht32 : t ≤ 2147483647) :
    (t ≤ vget D.GroupsPerDevice id →
      num_groups D id K t thread_limit loop_tripcount = some t) ∧
    (vget D.GroupsPerDevice id < t →
      num_groups D id K t thread_limit loop_tripcount =
        some (toUInt32 (vget D.GroupsPerDevice id))) ∧
    (0 ≤ vget D.GroupsPerDevice id →
      num_groups D id K t thread_limit loop_tripcount =
        some (min t (vget D.GroupsPerDevice id))) := by
  unfold num_groups
  simp only [show ¬ t ≤ 0 by omega, if_false, toUInt32, min_def]
  refine ⟨fun h => ?_, fun h => ?_, fun h => ?_⟩
  · rw [if_neg (by omega)]; congr 1; omega
  · rw [if_pos (by omega)]
  · split_ifs <;> congr 1 <;> omega

/-- C2 (amended) at the spec's example: limit 512, 1000 teams requested, result 512. -/
theorem C2_requested_team_count_witness :
    num_groups (tgt_rtl_init_device ⟨none, none, none⟩ (RTLDeviceInfoTy.init 1 none none) 0).2
      0 ⟨"kernel", GENERIC⟩ 1000 0 77 = some 512 :=
  (C2_requested_team_count
    (tgt_rtl_init_device ⟨none, none, none⟩ (RTLDeviceInfoTy.init 1 none none) 0).2
    0 ⟨"kernel", GENERIC⟩ 1000 0 77 (by decide) (by decide)).2.2 (by decide)

/-! ## Group count from the trip count -/

/-- The rounding-up division of line 821 is the ceiling of the quotient. -/
theorem div_add_one_eq_ceil (n p : Int) (hp : 1 ≤ p) :
    (n - 1) / p + 1 = ⌈(n : ℚ) / (p : ℚ)⌉ := by
  have hp0 : (0 : ℚ) < (p : ℚ) := by exact_mod_cast hp
  have h1 := Int.emod_add_ediv (n - 1) p
  have h2 := Int.emod_nonneg (n - 1) (show p ≠ 0 by omega)
  have h3 := Int.emod_lt_of_pos (n - 1) (show 0 < p by omega)
  have e1 : ((n : ℚ) - 1) = (((n - 1) % p : Int) : ℚ) + (p : ℚ) * (((n - 1) / p : Int) : ℚ) := by
    exact_mod_cast h1.symm
  have e2 : (0 : ℚ) ≤ (((n - 1) % p : Int) : ℚ) := by exact_mod_cast h2
  have e3 : (((n - 1) % p : Int) : ℚ) + 1 ≤ (p : ℚ) := by exact_mod_cast h3
  symm
  rw [Int.ceil_eq_iff]
  constructor
  · rw [lt_div_iff₀ hp0]
    push_cast
    nlinarith
  · rw [div_le_iff₀ hp0]
    push_cast
    nlinarith

/-- The quotient of line 821 fits the 64-bit result. -/
theorem div_add_one_bounds (n p : Int) (hn : 1 ≤ n) (hp : 1 ≤ p) :
    0 ≤ (n - 1) / p ∧ (n - 1) / p + 1 ≤ n := by
  constructor
  · exact Int.ediv_nonneg (by omega) (by omega)
  · have := Int.ediv_le_self p (show 0 ≤ n - 1 by omega)
    omega

/-- C3, as stated, fails: an SPMD launch with thread limit 1 (so one thread per group) and
trip count `2^32` computes `((2^32 - 1) / 1) + 1 = 2^32` in 64 bits and stores it in the
32-bit `num_groups`, which becomes 0, while the ceiling of `2^32 / 1` is `2^32`. -/
theorem C3_counterexample :
    threadsPerGroup
        (tgt_rtl_init_device ⟨none, none, none⟩ (RTLDeviceInfoTy.init 1 none none) 0).2
        0 ⟨"kernel", SPMD⟩ 1 = 1 ∧
      num_groups (tgt_rtl_init_device ⟨none, none, none⟩ (RTLDeviceInfoTy.init 1 none none) 0).2
        0 ⟨"kernel", SPMD⟩ 0 1 4294967296 = some 0 ∧
      ⌈((4294967296 : Nat) : ℚ) / ((1 : Int) : ℚ)⌉ = 4294967296 := by
  refine ⟨by decide, by decide, ?_⟩
  norm_num

/-- C3, amended: for an SPMD kernel with `team_num <= 0`, `EnvNumTeams` unset (negative), a
64-bit trip count `n > 0` and a final threads-per-group value `p >= 1`, the group count is
`ceil(n / p)` reduced modulo `2^32`; it is `ceil(n / p)` itself whenever that is below
`2^32`. -/
theorem C3_spmd_trip_count (D : RTLDeviceInfoTy) (id : Nat) (K : KernelTy)
    (team_num thread_limit : Int) (n : Nat)
    (hK : K.ExecutionMode = SPMD) (ht : team_num ≤ 0) (hE : D.EnvNumTeams < 0)
    (hn : 0 < n) (hn64 : n < 18446744073709551616)
    (hp : 1 ≤ threadsPerGroup D id K thread_limit)
    (hp32 : threadsPerGroup D id K thread_limit ≤ 2147483647) :
    num_groups D id K team_num thread_limit n =
        some (⌈(n : ℚ) / (threadsPerGroup D id K thread_limit : ℚ)⌉ % 4294967296) ∧
      (⌈(n : ℚ) / (threadsPerGroup D id K thread_limit : ℚ)⌉ < 4294967296 →
        num_groups D id K team_num thread_limit n =
          some ⌈(n : ℚ) / (threadsPerGroup D id K thread_limit : ℚ)⌉) := by
  have hn1 : (1 : Int) ≤ (n : Int) := by omega
  have hceil := div_add_one_eq_ceil (n : Int) _ hp
  have hb := div_add_one_bounds (n : Int) _ hn1 hp
  have hq : (⌈((n : Int) : ℚ) / (threadsPerGroup D id K thread_limit : ℚ)⌉ : Int) =
      ⌈(n : ℚ) / (threadsPerGroup D id K thread_limit : ℚ)⌉ := by
    simp
  rw [hq] at hceil
  have hmain : num_groups D id K team_num thread_limit n =
      some (⌈(n : ℚ) / (threadsPerGroup D id K thread_limit : ℚ)⌉ % 4294967296) := by
    unfold num_groups
    have hc : (n > 0 ∧ D.EnvNumTeams < 0) := ⟨hn, hE⟩
    have hp64 : toUInt64 (threadsPerGroup D id K thread_limit) =
        threadsPerGroup D id K thread_limit := by
      simp only [toUInt64]; omega
    have hn64b : toUInt64 ((n : Int) - 1) = (n : Int) - 1 := by
      simp only [toUInt64]; omega
    simp only [ht, hc, hK, and_self, if_true, hp64, hn64b]
    rw [if_neg (by omega)]
    have hr : toUInt64 (((n : Int) - 1) / threadsPerGroup D id K thread_limit + 1) =
        ((n : Int) - 1) / threadsPerGroup D id K thread_limit + 1 := by
      simp only [toUInt64]; omega
    rw [hr, hceil, toUInt32]
  refine ⟨hmain, fun hlt => ?_⟩
  rw [hmain]
  congr 1
  have h0 : 0 ≤ ⌈(n : ℚ) / (threadsPerGroup D id K thread_limit : ℚ)⌉ := by
    rw [← hceil]; omega
  omega

/-- C3 (amended) at the spec's example: 64 threads per group, trip count 640, 10 groups. -/
theorem C3_spmd_trip_count_witness :
    num_groups (tgt_rtl_init_device ⟨none, none, none⟩ (RTLDeviceInfoTy.init 1 none none) 0).2
        0 ⟨"kernel", SPMD⟩ 0 64 640 =
      some (⌈((640 : Nat) : ℚ) / (threadsPerGroup
        (tgt_rtl_init_device ⟨none, none, none⟩ (RTLDeviceInfoTy.init 1 none none) 0).2
        0 ⟨"kernel", SPMD⟩ 64 : ℚ)⌉ % 4294967296) ∧
      num_groups (tgt_rtl_init_device ⟨none, none, none⟩ (RTLDeviceInfoTy.init 1 none none) 0).2
        0 ⟨"kernel", SPMD⟩ 0 64 640 = some 10 :=
  ⟨(C3_spmd_trip_count
    (tgt_rtl_init_device ⟨none, none, none⟩ (RTLDeviceInfoTy.init 1 none none) 0).2
    0 ⟨"kernel", SPMD⟩ 0 64 640 rfl (by decide) (by decide) (by decide) (by decide)
    (by decide) (by decide)).1, by decide⟩

/-! ## Threads per group -/

/-- C4: without 32-bit overflow, the threads-per-group value is `min B ThreadsPerGroup[id]`,
where `B` is the requested thread limit `r` for an SPMD kernel with `r > 0`, `r + w` (`w` the
wavefront size) for a GENERIC kernel with `r > 0`, and the default thread count
`NumThreads[id]` when `r <= 0` in either mode. -/
theorem C4_threads_per_group (D : RTLDeviceInfoTy) (id : Nat) (K : KernelTy) (r : Int)
    (hK : K.ExecutionMode = SPMD ∨ K.ExecutionMode = GENERIC)
    (hN : InInt32 (vget D.NumThreads id))
    (hadd : K.ExecutionMode = GENERIC → 0 < r → InInt32 (r + vget D.WavefrontSize id))
    (hsub : K.ExecutionMode = GENERIC → r ≤ 0 →
      InInt32 (vget D.NumThreads id - vget D.WavefrontSize id)) :
    threadsPerGroup D id K r =
      min (if 0 < r then (if K.ExecutionMode = GENERIC then r + vget D.WavefrontSize id else r)
           else vget D.NumThreads id)
        (vget D.ThreadsPerGroup id) := by
  unfold InInt32 at hN hadd hsub
  unfold threadsPerGroup
  rcases hK with hK | hK
  · have hne : ¬ K.ExecutionMode = GENERIC := by rw [hK]; decide
    simp only [hne, if_false, min_def]
    split_ifs <;> omega
  · simp only [hK, if_true, min_def, toInt32]
    by_cases hr : 0 < r
    · have := hadd hK hr
      simp only [hr, gt_iff_lt, if_true]
      split_ifs <;> omega
    · have := hsub hK (by omega)
      simp only [hr, gt_iff_lt, if_false]
      split_ifs <;> omega

/-- C4 at the spec's example: GENERIC kernel, no thread limit, default thread count 128,
wavefront 64: 128 threads per group (the device limit being 1024). -/
theorem C4_threads_per_group_witness :
    threadsPerGroup
        (tgt_rtl_init_device ⟨none, none, none⟩ (RTLDeviceInfoTy.init 1 none none) 0).2
        0 ⟨"kernel", GENERIC⟩ 0 = 128 :=
  C4_threads_per_group
    (tgt_rtl_init_device ⟨none, none, none⟩ (RTLDeviceInfoTy.init 1 none none) 0).2
    0 ⟨"kernel", GENERIC⟩ 0 (Or.inr rfl) (by decide) (by decide) (by decide)

/-! ## Default team count -/

/-- C5, as stated, fails for a negative default team count: after an initialisation whose
compute-unit query returns `0xFFFFFFFF` the group limit is `-1` and the default team count,
capped at it, is `-1`; a launch with `team_num = 0` and trip count 0 stores it in the
`unsigned num_groups`, which becomes 4294967295, not `-1`. -/
theorem C5_counterexample :
    vget (tgt_rtl_init_device ⟨some 4294967295, none, none⟩
        (RTLDeviceInfoTy.init 1 none none) 0).2.NumTeams 0 = -1 ∧
      num_groups (tgt_rtl_init_device ⟨some 4294967295, none, none⟩
        (RTLDeviceInfoTy.init 1 none none) 0).2 0 ⟨"kernel", SPMD⟩ 0 0 0 = some 4294967295 ∧
      (4294967295 : Int) ≠ -1 := by
  decide

/-- C5, amended: with no positive requested team count and either a zero trip count or
`EnvNumTeams >= 0`, the group count is the default team count `NumTeams[device_id]` as
stored in the `unsigned num_groups` (its value modulo `2^32`), for every kernel and thread
limit; it is `NumTeams[device_id]` itself whenever that is not negative. -/
theorem C5_default_team_count (D : RTLDeviceInfoTy) (id : Nat) (K : KernelTy)
    (team_num thread_limit : Int) (loop_tripcount : Nat)
    (ht : team_num ≤ 0) (h : loop_tripcount = 0 ∨ 0 ≤ D.EnvNumTeams)
    (hN : InInt32 (vget D.NumTeams id)) :
    num_groups D id K team_num thread_limit loop_tripcount =
        some (toUInt32 (vget D.NumTeams id)) ∧
      (0 ≤ vget D.NumTeams id →
        num_groups D id K team_num thread_limit loop_tripcount =
          some (vget D.NumTeams id)) := by
  unfold InInt32 at hN
  have hcond : ¬ (loop_tripcount > 0 ∧ D.EnvNumTeams < 0) := by omega
  have hmain : num_groups D id K team_num thread_limit loop_tripcount =
      some (toUInt32 (vget D.NumTeams id)) := by
    unfold num_groups
    simp only [ht, if_true, hcond, if_false]
  refine ⟨hmain, fun h0 => ?_⟩
  rw [hmain, toUInt32]
  congr 1
  omega

/-- C5 (amended) at the spec's example: `team_num = 0`, trip count 0, override unset: the device
default 128. -/
theorem C5_default_team_count_witness :
    num_groups (tgt_rtl_init_device ⟨none, none, none⟩ (RTLDeviceInfoTy.init 1 none none) 0).2
      0 ⟨"kernel", SPMD⟩ 0 0 0 = some 128 :=
  (C5_default_team_count
    (tgt_rtl_init_device ⟨none, none, none⟩ (RTLDeviceInfoTy.init 1 none none) 0).2
    0 ⟨"kernel", SPMD⟩ 0 0 0 (by decide) (Or.inl rfl) (by decide)).2 (by decide)

/-! ## Binary validation -/

/-- C6: on an image that libelf recognises as an ELF object with exactly one of the two
headers, carrying the 16-bit machine ID `m`, `__tgt_rtl_is_valid_binary` returns 1 exactly
when `m` is 0, 224, 44890 or 44891, and 0 for every other `m`; it returns 0 when the library
version is incompatible, when there is no ELF handle, when the kind is not `ELF_K_ELF`, when
no header is present and when both are. -/
theorem C6_is_valid_binary (ok : Bool) (image : tgt_device_image) :
    (∀ e m, ok = true → image.elf = some e → e.kind = Elf_Kind.ELF_K_ELF →
      (e.eh64 = some m ∧ e.eh32 = none) ∨ (e.eh64 = none ∧ e.eh32 = some m) →
      m < 65536 →
      (tgt_rtl_is_valid_binary ok image = 1 ↔ m = 0 ∨ m = 224 ∨ m = 44890 ∨ m = 44891) ∧
      (¬ (m = 0 ∨ m = 224 ∨ m = 44890 ∨ m = 44891) → tgt_rtl_is_valid_binary ok image = 0)) ∧
    (ok = false → tgt_rtl_is_valid_binary ok image = 0) ∧
    (image.elf = none → tgt_rtl_is_valid_binary ok image = 0) ∧
    (∀ e, image.elf = some e → e.kind ≠ Elf_Kind.ELF_K_ELF →
      tgt_rtl_is_valid_binary ok image = 0) ∧
    (∀ e, image.elf = some e → e.eh64 = none → e.eh32 = none →
      tgt_rtl_is_valid_binary ok image = 0) ∧
    (∀ e, image.elf = some e → e.eh64 ≠ none → e.eh32 ≠ none →
      tgt_rtl_is_valid_binary ok image = 0) := by
  refine ⟨?_, ?_, ?_, ?_, ?_, ?_⟩
  · intro e m hok he hk hh hm
    have hm16 : toUInt16 (m : Int) = (m : Int) := by simp only [toUInt16]; omega
    rcases hh with ⟨h64, h32⟩ | ⟨h64, h32⟩ <;>
      simp only [tgt_rtl_is_valid_binary, hok, he, hk, h64, h32, hm16, Bool.not_true,
        ne_eq, not_true_eq_false, if_false, Bool.false_eq_true] <;>
      constructor <;> (try intro h) <;> split_ifs at * <;> omega
  · intro hok
    simp [tgt_rtl_is_valid_binary, hok]
  · intro he
    simp [tgt_rtl_is_valid_binary, he]
  · intro e he hk
    simp [tgt_rtl_is_valid_binary, he, hk]
  · intro e he h64 h32
    simp [tgt_rtl_is_valid_binary, he, h64, h32]
  · intro e he h64 h32
    cases h : e.eh64 with
    | none => exact absurd h h64
    | some a =>
      cases h' : e.eh32 with
      | none => exact absurd h' h32
      | some b => simp [tgt_rtl_is_valid_binary, he, h, h']

/-- C6 at an amdgcn image (64-bit header, machine ID 224): accepted. -/
theorem C6_is_valid_binary_witness :
    tgt_rtl_is_valid_binary true ⟨some ⟨Elf_Kind.ELF_K_ELF, some 224, none⟩, []⟩ = 1 :=
  ((C6_is_valid_binary true ⟨some ⟨Elf_Kind.ELF_K_ELF, some 224, none⟩, []⟩).1
    ⟨Elf_Kind.ELF_K_ELF, some 224, none⟩ 224 rfl rfl rfl (Or.inl ⟨rfl, rfl⟩)
    (by decide)).1.mpr (Or.inr (Or.inl rfl))

/-! ## The loader -/

/-- The loop of the loader, one host entry at a time. -/
theorem loadEntries_cons (dev : AtmiDevice) (id : Nat) (e : tgt_offload_entry)
    (rest : List tgt_offload_entry) (D : RTLDeviceInfoTy) (K : List KernelTy) :
    loadEntries dev id (e :: rest) D K =
      match loadEntry dev id K.length e with
      | none => (false, D, K)
      | some (a, ks) => loadEntries dev id rest (D.addOffloadEntry id a) (K ++ ks) := by
  simp only [loadEntries, loadEntry]
  split_ifs with h1 h2
  · simp
  · cases hs : dev.symbol_info id e.name with
    | none => rfl
    | some pv =>
      obtain ⟨varptr, varsize⟩ := pv
      simp only []
      split_ifs <;> simp
  · cases hs : dev.symbol_info id (e.name ++ "_exec_mode") with
    | none => simp
    | some pv =>
      obtain ⟨ptr, varsize⟩ := pv
      simp only []
      split_ifs
      · simp
      · cases hm : dev.memcpy_d2h ptr with
        | none => simp
        | some b =>
          simp only []
          split_ifs <;> simp

/-- The entry appended for a host entry has its name and size, and is the host entry
itself when the host address is null. -/
theorem loadEntry_resolves (dev : AtmiDevice) (id n : Nat) (e a : tgt_offload_entry)
    (ks : List KernelTy) (h : loadEntry dev id n e = some (a, ks)) : Resolves e a := by
  unfold loadEntry at h
  unfold Resolves
  split_ifs at h with h1 h2
  · simp only [Option.some.injEq, Prod.mk.injEq] at h
    obtain ⟨rfl, -⟩ := h
    exact ⟨rfl, rfl, fun _ => rfl⟩
  · split at h
    · exact absurd h (by simp)
    · split_ifs at h
      simp only [Option.some.injEq, Prod.mk.injEq] at h
      obtain ⟨rfl, -⟩ := h
      exact ⟨rfl, rfl, fun h0 => absurd h0 h1⟩
  · split at h
    · split_ifs at h
      split at h
      · exact absurd h (by simp)
      · split_ifs at h
        simp only [Option.some.injEq, Prod.mk.injEq] at h
        obtain ⟨rfl, -⟩ := h
        exact ⟨rfl, rfl, fun h0 => absurd h0 h1⟩
    · simp only [Option.some.injEq, Prod.mk.injEq] at h
      obtain ⟨rfl, -⟩ := h
      exact ⟨rfl, rfl, fun h0 => absurd h0 h1⟩

/-- A kernel record or a kernel address comes from a host entry with a non-null address
and size zero whose execution mode was accepted. -/
theorem loadEntry_kernel (dev : AtmiDevice) (id n : Nat) (e a : tgt_offload_entry)
    (ks : List KernelTy) (h : loadEntry dev id n e = some (a, ks)) :
    (∀ r ∈ ks, r.Func = e.name) ∧ ((∃ r, r ∈ ks) ∨ (∃ i, a.addr = AddrTy.kernel i) →
      a.name = e.name ∧ e.addr ≠ AddrTy.raw 0 ∧ e.size = 0 ∧
      ∀ ptr varsize b, dev.symbol_info id (e.name ++ "_exec_mode") = some (ptr, varsize) →
        toUInt32 varsize = 1 → dev.memcpy_d2h ptr = some b → toInt8 b = 0 ∨ toInt8 b = 1) := by
  unfold loadEntry at h
  split_ifs at h with h1 h2
  · simp only [Option.some.injEq, Prod.mk.injEq] at h
    obtain ⟨rfl, rfl⟩ := h
    refine ⟨by simp, ?_⟩
    rintro (⟨r, hr⟩ | ⟨i, hi⟩)
    · simp at hr
    · rw [h1] at hi; cases hi
  · split at h
    · exact absurd h (by simp)
    · split_ifs at h
      simp only [Option.some.injEq, Prod.mk.injEq] at h
      obtain ⟨rfl, rfl⟩ := h
      refine ⟨by simp, ?_⟩
      rintro (⟨r, hr⟩ | ⟨i, hi⟩)
      · simp at hr
      · cases hi
  · have hsz : e.size = 0 := by simpa using h2
    split at h
    · rename_i ptr0 vs0 hs0
      split_ifs at h with hv
      split at h
      · exact absurd h (by simp)
      · rename_i b0 hb0
        split_ifs at h with hb
        simp only [Option.some.injEq, Prod.mk.injEq] at h
        obtain ⟨rfl, rfl⟩ := h
        refine ⟨by simp, fun _ => ⟨rfl, h1, hsz, ?_⟩⟩
        intro ptr varsize b hs hvs hm
        rw [hs0] at hs
        simp only [Option.some.injEq, Prod.mk.injEq] at hs
        obtain ⟨rfl, rfl⟩ := hs
        rw [hb0] at hm
        simp only [Option.some.injEq] at hm
        subst hm
        omega
    · rename_i hs0
      simp only [Option.some.injEq, Prod.mk.injEq] at h
      obtain ⟨rfl, rfl⟩ := h
      refine ⟨by simp, fun _ => ⟨rfl, h1, hsz, ?_⟩⟩
      intro ptr varsize b hs
      rw [hs0] at hs
      exact absurd hs (by simp)

/-- A host entry with a null address is appended unchanged. -/
theorem loadEntry_passthrough (dev : AtmiDevice) (id n : Nat) (e : tgt_offload_entry)
    (h : e.addr = AddrTy.raw 0) : loadEntry dev id n e = some (e, []) := by
  simp [loadEntry, h]

theorem set_getD_self (l : List FuncOrGblEntryTy) (i : Nat) (d : FuncOrGblEntryTy)
    (h : i < l.length) : l.set i (l.getD i d) = l := by
  apply List.ext_getElem
  · simp
  · intro j h1 h2
    by_cases hij : i = j
    · subst hij
      simp [List.getD_eq_getElem?_getD, h]
    · simp [List.getElem_set_ne hij]

theorem getD_set_self (l : List FuncOrGblEntryTy) (i : Nat) (x d : FuncOrGblEntryTy)
    (h : i < l.length) : (l.set i x).getD i d = x := by
  simp [List.getD_eq_getElem?_getD, h]

/-- Appending to the table of device `id` twice. -/
theorem addOffloadEntry_then (D : RTLDeviceInfoTy) (id : Nat) (a : tgt_offload_entry)
    (added : List tgt_offload_entry) (h : id < D.FuncGblEntries.length) :
    ({ D.addOffloadEntry id a with
        FuncGblEntries := (D.addOffloadEntry id a).FuncGblEntries.set id
          ⟨((D.addOffloadEntry id a).FuncGblEntries.getD id ⟨⟨none, none⟩, []⟩).Table,
            (D.addOffloadEntry id a).entriesOf id ++ added⟩ } : RTLDeviceInfoTy) =
      { D with
        FuncGblEntries := D.FuncGblEntries.set id
          ⟨(D.FuncGblEntries.getD id ⟨⟨none, none⟩, []⟩).Table,
            D.entriesOf id ++ a :: added⟩ } := by
  simp only [RTLDeviceInfoTy.addOffloadEntry, RTLDeviceInfoTy.entriesOf,
    getD_set_self _ _ _ _ h, List.set_set, List.append_assoc, List.singleton_append]

/-- What the loop of the loader does to the registry and to the kernel list. -/
theorem loadEntries_spec (dev : AtmiDevice) (id : Nat) (es : List tgt_offload_entry) :
    ∀ (D : RTLDeviceInfoTy) (K : List KernelTy), id < D.FuncGblEntries.length →
    ∃ (added : List tgt_offload_entry) (extra : List KernelTy),
      (loadEntries dev id es D K).2.1 =
        { D with
          FuncGblEntries := D.FuncGblEntries.set id
            ⟨(D.FuncGblEntries.getD id ⟨⟨none, none⟩, []⟩).Table, D.entriesOf id ++ added⟩ } ∧
      (loadEntries dev id es D K).2.2 = K ++ extra ∧
      added.length ≤ es.length ∧
      List.Forall₂ (fun e a => ∃ n ks, loadEntry dev id n e = some (a, ks))
        (es.take added.length) added ∧
      (∀ r ∈ extra, ∃ e n a ks, e ∈ es ∧ loadEntry dev id n e = some (a, ks) ∧ r ∈ ks) ∧
      ((loadEntries dev id es D K).1 = true → added.length = es.length) ∧
      (∀ pre g post, es = pre ++ g :: post → (∀ n, loadEntry dev id n g = none) →
        (loadEntries dev id es D K).1 = false ∧ added.length ≤ pre.length ∧
        ((∀ e ∈ pre, e.addr = AddrTy.raw 0) → added = pre)) := by
  induction es with
  | nil =>
    intro D K hid
    refine ⟨[], [], ?_, ?_, ?_, ?_, ?_, ?_, ?_⟩
    · simp only [loadEntries, List.append_nil, RTLDeviceInfoTy.entriesOf]
      rw [set_getD_self _ _ _ hid]
    · simp [loadEntries]
    · simp
    · simp
    · simp
    · simp
    · intro pre g post h
      simp at h
  | cons e rest ih =>
    intro D K hid
    rw [loadEntries_cons]
    cases hstep : loadEntry dev id K.length e with
    | none =>
      refine ⟨[], [], ?_, ?_, ?_, ?_, ?_, ?_, ?_⟩
      · simp only [List.append_nil, RTLDeviceInfoTy.entriesOf]
        rw [set_getD_self _ _ _ hid]
      · simp
      · simp
      · simp
      · simp
      · simp
      · intro pre g post hes hg
        refine ⟨rfl, by simp, ?_⟩
        intro hpre
        cases pre with
        | nil => rfl
        | cons p pre' =>
          simp only [List.cons_append, List.cons.injEq] at hes
          have hp := hpre p (by simp)
          rw [← hes.1] at hp
          rw [loadEntry_passthrough dev id K.length e hp] at hstep
          exact absurd hstep (by simp)
    | some p =>
      obtain ⟨a, ks⟩ := p
      have hid1 : id < (D.addOffloadEntry id a).FuncGblEntries.length := by
        simp [RTLDeviceInfoTy.addOffloadEntry, hid]
      obtain ⟨added, extra, h1, h2, h3, h4, h5, h6, h7⟩ :=
        ih (D.addOffloadEntry id a) (K ++ ks) hid1
      refine ⟨a :: added, ks ++ extra, ?_, ?_, ?_, ?_, ?_, ?_, ?_⟩
      · simp only []
        rw [h1, addOffloadEntry_then D id a added hid]
      · simp only []
        rw [h2, List.append_assoc]
      · simp only [List.length_cons]; omega
      · simp only [List.length_cons, List.take_succ_cons]
        exact List.Forall₂.cons ⟨_, _, hstep⟩ h4
      · intro r hr
        rcases List.mem_append.mp hr with hr | hr
        · exact ⟨e, _, _, _, by simp, hstep, hr⟩
        · obtain ⟨e', n, a', ks', he', hl, hr'⟩ := h5 r hr
          exact ⟨e', n, a', ks', List.mem_cons_of_mem _ he', hl, hr'⟩
      · intro hok
        simp only [List.length_cons]
        rw [h6 hok]
      · intro pre g post hes hg
        cases pre with
        | nil =>
          simp only [List.nil_append, List.cons.injEq] at hes
          rw [hes.1, hg] at hstep
          exact absurd hstep (by simp)
        | cons p pre' =>
          simp only [List.cons_append, List.cons.injEq] at hes
          obtain ⟨hf, hl, hp⟩ := h7 pre' g post hes.2 hg
          refine ⟨hf, by simp only [List.length_cons]; omega, ?_⟩
          intro hpre
          have hp0 := hpre p (by simp)
          rw [← hes.1] at hp0
          rw [loadEntry_passthrough dev id K.length e hp0] at hstep
          simp only [Option.some.injEq, Prod.mk.injEq] at hstep
          rw [hp (fun x hx => hpre x (List.mem_cons_of_mem _ hx)), ← hstep.1, hes.1]

/-- Appending to the table of device `id` after clearing it. -/
theorem clear_then (D : RTLDeviceInfoTy) (id : Nat) (added : List tgt_offload_entry)
    (h : id < D.FuncGblEntries.length) :
    ({ D.clearOffloadEntriesTable id with
        FuncGblEntries := (D.clearOffloadEntriesTable id).FuncGblEntries.set id
          ⟨((D.clearOffloadEntriesTable id).FuncGblEntries.getD id ⟨⟨none, none⟩, []⟩).Table,
            (D.clearOffloadEntriesTable id).entriesOf id ++ added⟩ } : RTLDeviceInfoTy) =
      { D with FuncGblEntries := D.FuncGblEntries.set id ⟨⟨none, none⟩, added⟩ } := by
  simp only [RTLDeviceInfoTy.clearOffloadEntriesTable, RTLDeviceInfoTy.entriesOf,
    getD_set_self _ _ _ _ h, List.set_set, List.nil_append]

/-- Method `getOffloadEntriesTable` on a device whose table is known. -/
theorem getOffloadEntriesTable_set (D : RTLDeviceInfoTy) (id : Nat) (T : tgt_target_table)
    (added : List tgt_offload_entry) (h : id < D.FuncGblEntries.length) :
    ({ D with FuncGblEntries := D.FuncGblEntries.set id ⟨T, added⟩ } :
        RTLDeviceInfoTy).getOffloadEntriesTable id =
      if added.length = 0 then
        (none, { D with FuncGblEntries := D.FuncGblEntries.set id ⟨T, added⟩ })
      else
        (some ⟨some 0, some added.length⟩,
          { D with FuncGblEntries :=
              D.FuncGblEntries.set id ⟨⟨some 0, some added.length⟩, added⟩ }) := by
  simp only [RTLDeviceInfoTy.getOffloadEntriesTable, getD_set_self _ _ _ _ h, List.set_set]
  split_ifs with h0
  · rfl
  · have : added.length - 1 + 1 = added.length := by omega
    rw [this]

/-- What `__tgt_rtl_load_binary` does to the registry and to the kernel list. -/
theorem load_binary_spec (dev : AtmiDevice) (sz : Nat) (D : RTLDeviceInfoTy)
    (K : List KernelTy) (id : Nat) (image : tgt_device_image)
    (hid : id < D.FuncGblEntries.length) :
    ∃ (added : List tgt_offload_entry) (extra : List KernelTy) (T : tgt_target_table),
      (tgt_rtl_load_binary dev sz D K id image).2.1 =
        { D with FuncGblEntries := D.FuncGblEntries.set id ⟨T, added⟩ } ∧
      (tgt_rtl_load_binary dev sz D K id image).2.2 = K ++ extra ∧
      added.length ≤ image.Entries.length ∧
      List.Forall₂ (fun e a => ∃ n ks, loadEntry dev id n e = some (a, ks))
        (image.Entries.take added.length) added ∧
      (∀ r ∈ extra, ∃ e n a ks, e ∈ image.Entries ∧ loadEntry dev id n e = some (a, ks) ∧
        r ∈ ks) ∧
      ((tgt_rtl_load_binary dev sz D K id image).1 ≠ none →
        added.length = image.Entries.length ∧
        (tgt_rtl_load_binary dev sz D K id image).1 = some ⟨some 0, some added.length⟩) ∧
      (∀ pre g post, image.Entries = pre ++ g :: post → (∀ n, loadEntry dev id n g = none) →
        (tgt_rtl_load_binary dev sz D K id image).1 = none ∧ added.length ≤ pre.length ∧
        (loadHeader image ≠ none → (∀ e ∈ pre, e.addr = AddrTy.raw 0) → added = pre)) := by
  unfold tgt_rtl_load_binary
  cases hh : loadHeader image with
  | none =>
    refine ⟨[], [], ⟨none, none⟩, rfl, by simp, by simp, by simp, by simp, by simp, ?_⟩
    intro pre g post _ _
    exact ⟨rfl, by simp, fun h => absurd rfl h⟩
  | some useBrig =>
    have hid0 : id < (D.clearOffloadEntriesTable id).FuncGblEntries.length := by
      simp [RTLDeviceInfoTy.clearOffloadEntriesTable, hid]
    obtain ⟨added, extra, h1, h2, h3, h4, h5, h6, h7⟩ :=
      loadEntries_spec dev id image.Entries (D.clearOffloadEntriesTable id) K hid0
    rw [clear_then D id added hid] at h1
    rcases hr : loadEntries dev id image.Entries (D.clearOffloadEntriesTable id) K with
      ⟨ok, D1, K1⟩
    rw [hr] at h1 h2 h6 h7
    simp only at h1 h2 h6 h7
    simp only [hr]
    cases ok with
    | false =>
      simp only []
      refine ⟨added, extra, ⟨none, none⟩, h1, h2, h3, h4, h5, by simp, ?_⟩
      intro pre g post hes hg
      obtain ⟨-, hl, hp⟩ := h7 pre g post hes hg
      exact ⟨trivial, hl, fun _ => hp⟩
    | true =>
      simp only []
      split_ifs with henv
      · refine ⟨added, extra, ⟨none, none⟩, h1, h2, h3, h4, h5, by simp, ?_⟩
        intro pre g post hes hg
        obtain ⟨-, hl, hp⟩ := h7 pre g post hes hg
        exact ⟨rfl, hl, fun _ => hp⟩
      · have hlen := h6 rfl
        simp only []
        rw [h1, getOffloadEntriesTable_set D id _ added hid]
        split_ifs with h0
        · refine ⟨added, extra, ⟨none, none⟩, rfl, h2, h3, h4, h5, by simp, ?_⟩
          intro pre g post hes hg
          obtain ⟨-, hl, hp⟩ := h7 pre g post hes hg
          exact ⟨rfl, hl, fun _ => hp⟩
        · refine ⟨added, extra, ⟨some 0, some added.length⟩, rfl, h2, h3, h4, h5,
            fun _ => ⟨hlen, rfl⟩, ?_⟩
          intro pre g post hes hg
          obtain ⟨hf, -, -⟩ := h7 pre g post hes hg
          exact absurd hf (by simp)

theorem entriesOf_set (D : RTLDeviceInfoTy) (id : Nat) (T : tgt_target_table)
    (added : List tgt_offload_entry) (h : id < D.FuncGblEntries.length) :
    ({ D with FuncGblEntries := D.FuncGblEntries.set id ⟨T, added⟩ } :
        RTLDeviceInfoTy).entriesOf id = added := by
  simp only [RTLDeviceInfoTy.entriesOf, getD_set_self _ _ _ _ h]

theorem forall₂_mem_right {α β : Type} {R : α → β → Prop} {l₁ : List α} {l₂ : List β}
    (h : List.Forall₂ R l₁ l₂) {b : β} (hb : b ∈ l₂) : ∃ a ∈ l₁, R a b := by
  induction h with
  | nil => simp at hb
  | cons hab _ ih =>
    rcases List.mem_cons.mp hb with rfl | hb
    · exact ⟨_, by simp, hab⟩
    · obtain ⟨a, ha, hr⟩ := ih hb
      exact ⟨a, List.mem_cons_of_mem _ ha, hr⟩

/-- Whether an iteration of the loader's loop fails does not depend on the number of
kernels already recorded. -/
theorem loadEntry_none_indep (dev : AtmiDevice) (id n m : Nat) (e : tgt_offload_entry)
    (h : loadEntry dev id n e = none) : loadEntry dev id m e = none := by
  unfold loadEntry at h ⊢
  split_ifs at h ⊢ with h1 h2
  · rcases hs : dev.symbol_info id e.name with _ | ⟨p, v⟩
    · rfl
    · rw [hs] at h
      simp only [] at h ⊢
      split_ifs at h ⊢
      rfl
  · rcases hs : dev.symbol_info id (e.name ++ "_exec_mode") with _ | ⟨p, v⟩
    · rw [hs] at h
      simp at h
    · rw [hs] at h
      simp only [] at h ⊢
      split_ifs at h ⊢
      · rfl
      · rcases hm : dev.memcpy_d2h p with _ | b
        · rfl
        · rw [hm] at h
          simp only [] at h ⊢
          split_ifs at h ⊢
          rfl

/-- The loop of the loader runs to its end exactly when no host entry fails. -/
theorem loadEntries_fst (dev : AtmiDevice) (id : Nat) (es : List tgt_offload_entry) :
    ∀ (D : RTLDeviceInfoTy) (K : List KernelTy),
      (loadEntries dev id es D K).1 = true ↔ ∀ e ∈ es, loadEntry dev id 0 e ≠ none := by
  induction es with
  | nil =>
    intro D K
    simp [loadEntries]
  | cons e rest ih =>
    intro D K
    rw [loadEntries_cons]
    cases hstep : loadEntry dev id K.length e with
    | none =>
      have h0 := loadEntry_none_indep dev id K.length 0 e hstep
      simp only [Bool.false_eq_true, false_iff]
      intro hall
      exact hall e (by simp) h0
    | some p =>
      obtain ⟨a, ks⟩ := p
      simp only []
      rw [ih]
      constructor
      · intro hall x hx
        rcases List.mem_cons.mp hx with rfl | hx
        · intro h0
          rw [loadEntry_none_indep dev id 0 K.length x h0] at hstep
          exact absurd hstep (by simp)
        · exact hall x hx
      · intro hall x hx
        exact hall x (List.mem_cons_of_mem _ hx)

/-- When the host entry `g` fails, the loop over `pre ++ g :: post` stops with the registry
and the kernel list that the loop over `pre` alone leaves. -/
theorem loadEntries_append_fail (dev : AtmiDevice) (id : Nat) (g : tgt_offload_entry)
    (post : List tgt_offload_entry) (hg : ∀ n, loadEntry dev id n g = none)
    (pre : List tgt_offload_entry) :
    ∀ (D : RTLDeviceInfoTy) (K : List KernelTy),
      loadEntries dev id (pre ++ g :: post) D K = (false, (loadEntries dev id pre D K).2) := by
  induction pre with
  | nil =>
    intro D K
    rw [List.nil_append, loadEntries_cons, hg]
    rfl
  | cons e rest ih =>
    intro D K
    rw [List.cons_append, loadEntries_cons, loadEntries_cons]
    cases hstep : loadEntry dev id K.length e with
    | none => rfl
    | some p =>
      obtain ⟨a, ks⟩ := p
      exact ih _ _

/-! ## Size mismatch of a global -/

/-- C7, as stated, fails: the host list holds a kernel entry `k` (no `k_exec_mode` symbol on
the device) followed by a global `g` declared with size 8 that the device resolves with
size 4.  The load returns null, but the entry appended for `k` before the mismatch was met is
still in the device's table, and `getOffloadEntriesTable` returns that one-entry table, not
the empty marker. -/
theorem C7_counterexample :
    (tgt_rtl_load_binary
        ⟨fun _ name => if name = "g" then some (4096, 4) else none, fun _ => none,
          fun _ => true⟩ 12
        (RTLDeviceInfoTy.init 1 none none) [] 0
        ⟨some ⟨Elf_Kind.ELF_K_ELF, some 224, none⟩,
          [⟨AddrTy.raw 4096, "k", 0⟩, ⟨AddrTy.raw 8192, "g", 8⟩]⟩).1 = none ∧
      (tgt_rtl_load_binary
        ⟨fun _ name => if name = "g" then some (4096, 4) else none, fun _ => none,
          fun _ => true⟩ 12
        (RTLDeviceInfoTy.init 1 none none) [] 0
        ⟨some ⟨Elf_Kind.ELF_K_ELF, some 224, none⟩,
          [⟨AddrTy.raw 4096, "k", 0⟩, ⟨AddrTy.raw 8192, "g", 8⟩]⟩).2.1.entriesOf 0 =
        [⟨AddrTy.kernel 0, "k", 0⟩] ∧
      ((tgt_rtl_load_binary
        ⟨fun _ name => if name = "g" then some (4096, 4) else none, fun _ => none,
          fun _ => true⟩ 12
        (RTLDeviceInfoTy.init 1 none none) [] 0
        ⟨some ⟨Elf_Kind.ELF_K_ELF, some 224, none⟩,
          [⟨AddrTy.raw 4096, "k", 0⟩, ⟨AddrTy.raw 8192, "g", 8⟩]⟩).2.1.getOffloadEntriesTable
        0).1 = some ⟨some 0, some 1⟩ := by
  decide

/-- C7, amended: when the host list is `pre ++ g :: post` with `g` a global-variable entry
(non-null address, nonzero declared size) that the device resolves with another size,
`__tgt_rtl_load_binary` returns null and undoes nothing: when the header is accepted, the
registry and the kernel list are left exactly as the loop left them after the entries of
`pre` (cleared table plus what was appended for them); when the header is rejected the
table is the cleared one.  So the table holds no entry of an earlier load and nothing for
`g` or a later host entry; it holds, in host order, the entries resolved for the first host
entries of `pre` (name and size of the host entry, null-address entries verbatim), and one
for every entry of `pre` when the header is accepted and each of them resolves.  It is
empty, and `getOffloadEntriesTable` returns the empty marker, when `g` is the first host
entry; it is `pre` itself when the header is accepted and `pre` consists of null-address
entries. -/
theorem C7_size_mismatch_fails (dev : AtmiDevice) (sz : Nat) (D : RTLDeviceInfoTy)
    (K : List KernelTy) (id : Nat) (image : tgt_device_image)
    (pre post : List tgt_offload_entry) (g : tgt_offload_entry) (varptr varsize : Nat)
    (hid : id < D.FuncGblEntries.length)
    (hes : image.Entries = pre ++ g :: post)
    (haddr : g.addr ≠ AddrTy.raw 0) (hsize : g.size ≠ 0)
    (hsym : dev.symbol_info id g.name = some (varptr, varsize))
    (hmis : toUInt32 varsize ≠ g.size) :
    (tgt_rtl_load_binary dev sz D K id image).1 = none ∧
    ((tgt_rtl_load_binary dev sz D K id image).2.1.entriesOf id).length ≤ pre.length ∧
    List.Forall₂ Resolves
      (pre.take ((tgt_rtl_load_binary dev sz D K id image).2.1.entriesOf id).length)
      ((tgt_rtl_load_binary dev sz D K id image).2.1.entriesOf id) ∧
    (pre = [] →
      (tgt_rtl_load_binary dev sz D K id image).2.1.entriesOf id = [] ∧
      ((tgt_rtl_load_binary dev sz D K id image).2.1.getOffloadEntriesTable id).1 = none) ∧
    (loadHeader image ≠ none → (∀ e ∈ pre, e.addr = AddrTy.raw 0) →
      (tgt_rtl_load_binary dev sz D K id image).2.1.entriesOf id = pre) ∧
    (loadHeader image ≠ none →
      (tgt_rtl_load_binary dev sz D K id image).2 =
        (loadEntries dev id pre (D.clearOffloadEntriesTable id) K).2) ∧
    (loadHeader image = none →
      (tgt_rtl_load_binary dev sz D K id image).2 = (D.clearOffloadEntriesTable id, K) ∧
      (tgt_rtl_load_binary dev sz D K id image).2.1.entriesOf id = []) ∧
    (loadHeader image ≠ none → (∀ e ∈ pre, loadEntry dev id 0 e ≠ none) →
      ((tgt_rtl_load_binary dev sz D K id image).2.1.entriesOf id).length = pre.length ∧
      List.Forall₂ Resolves pre
        ((tgt_rtl_load_binary dev sz D K id image).2.1.entriesOf id)) := by
  have hfail : ∀ n, loadEntry dev id n g = none := by
    intro n
    simp [loadEntry, haddr, hsize, hsym, hmis]
  have hid0 : id < (D.clearOffloadEntriesTable id).FuncGblEntries.length := by
    simp [RTLDeviceInfoTy.clearOffloadEntriesTable, hid]
  have hstate : loadHeader image ≠ none →
      (tgt_rtl_load_binary dev sz D K id image).2 =
        (loadEntries dev id pre (D.clearOffloadEntriesTable id) K).2 := by
    intro hh
    obtain ⟨useBrig, hu⟩ := Option.ne_none_iff_exists'.mp hh
    simp only [tgt_rtl_load_binary, hu, hes,
      loadEntries_append_fail dev id g post hfail pre]
  have hcleared : loadHeader image = none →
      (tgt_rtl_load_binary dev sz D K id image).2 = (D.clearOffloadEntriesTable id, K) := by
    intro hh
    simp only [tgt_rtl_load_binary, hh]
  have hall : loadHeader image ≠ none → (∀ e ∈ pre, loadEntry dev id 0 e ≠ none) →
      ((tgt_rtl_load_binary dev sz D K id image).2.1.entriesOf id).length = pre.length ∧
      List.Forall₂ Resolves pre
        ((tgt_rtl_load_binary dev sz D K id image).2.1.entriesOf id) := by
    intro hh hres
    rw [hstate hh]
    obtain ⟨added, extra, h1, -, -, h4, -, h6, -⟩ :=
      loadEntries_spec dev id pre (D.clearOffloadEntriesTable id) K hid0
    have hok := (loadEntries_fst dev id pre (D.clearOffloadEntriesTable id) K).mpr hres
    have hlen := h6 hok
    rw [clear_then D id added hid] at h1
    rw [h1, entriesOf_set D id _ added hid]
    rw [hlen, List.take_length] at h4
    exact ⟨hlen, h4.imp (fun e a ⟨n, ks, h⟩ => loadEntry_resolves dev id n e a ks h)⟩
  have hempty : loadHeader image = none →
      (tgt_rtl_load_binary dev sz D K id image).2.1.entriesOf id = [] := by
    intro hh
    rw [hcleared hh]
    simp only [RTLDeviceInfoTy.clearOffloadEntriesTable, RTLDeviceInfoTy.entriesOf,
      getD_set_self _ _ _ _ hid]
  obtain ⟨added, extra, T, h1, -, -, h4, -, -, h7⟩ := load_binary_spec dev sz D K id image hid
  obtain ⟨hnone, hlen, hpre⟩ := h7 pre g post hes hfail
  have hE : (tgt_rtl_load_binary dev sz D K id image).2.1.entriesOf id = added := by
    rw [h1, entriesOf_set D id T added hid]
  have htake : image.Entries.take added.length = pre.take added.length := by
    rw [hes, List.take_append_of_le_length hlen]
  rw [htake] at h4
  refine ⟨hnone, ?_, ?_, ?_, ?_, hstate, fun hh => ⟨hcleared hh, hempty hh⟩, hall⟩
  · rw [hE]
    exact hlen
  · rw [hE]
    exact h4.imp (fun e a ⟨n, ks, h⟩ => loadEntry_resolves dev id n e a ks h)
  · intro hp
    subst hp
    have ha : added = [] := List.length_eq_zero.mp (by simpa using hlen)
    subst ha
    refine ⟨hE, ?_⟩
    rw [h1, getOffloadEntriesTable_set D id T [] hid]
    simp
  · intro hh hp
    rw [hE]
    exact hpre hh hp

/-- C7 (amended) at an image whose host list is a kernel `k`, a global `v` that resolves
with its declared size, and a global `g` that does not: null is returned and the table
keeps the two entries resolved for `k` and `v`. -/
theorem C7_size_mismatch_fails_witness :
    (tgt_rtl_load_binary
        ⟨fun _ name =>
            if name = "g" then some (4096, 4) else if name = "v" then some (8192, 16) else none,
          fun _ => none, fun _ => true⟩ 12
        (RTLDeviceInfoTy.init 1 none none) [] 0
        ⟨some ⟨Elf_Kind.ELF_K_ELF, some 224, none⟩,
          [⟨AddrTy.raw 100, "k", 0⟩, ⟨AddrTy.raw 200, "v", 16⟩,
            ⟨AddrTy.raw 300, "g", 8⟩]⟩).1 = none ∧
      (tgt_rtl_load_binary
        ⟨fun _ name =>
            if name = "g" then some (4096, 4) else if name = "v" then some (8192, 16) else none,
          fun _ => none, fun _ => true⟩ 12
        (RTLDeviceInfoTy.init 1 none none) [] 0
        ⟨some ⟨Elf_Kind.ELF_K_ELF, some 224, none⟩,
          [⟨AddrTy.raw 100, "k", 0⟩, ⟨AddrTy.raw 200, "v", 16⟩,
            ⟨AddrTy.raw 300, "g", 8⟩]⟩).2.1.entriesOf 0 =
        [⟨AddrTy.kernel 0, "k", 0⟩, ⟨AddrTy.raw 8192, "v", 16⟩] :=
  have h := C7_size_mismatch_fails
    ⟨fun _ name =>
        if name = "g" then some (4096, 4) else if name = "v" then some (8192, 16) else none,
      fun _ => none, fun _ => true⟩ 12
    (RTLDeviceInfoTy.init 1 none none) [] 0
    ⟨some ⟨Elf_Kind.ELF_K_ELF, some 224, none⟩,
      [⟨AddrTy.raw 100, "k", 0⟩, ⟨AddrTy.raw 200, "v", 16⟩, ⟨AddrTy.raw 300, "g", 8⟩]⟩
    [⟨AddrTy.raw 100, "k", 0⟩, ⟨AddrTy.raw 200, "v", 16⟩] [] ⟨AddrTy.raw 300, "g", 8⟩ 4096 4
    (by decide) rfl (by decide) (by decide) (by decide) (by decide)
  ⟨h.1, (congrArg (fun s => s.1.entriesOf 0) (h.2.2.2.2.2.1 (by decide))).trans (by decide)⟩

/-! ## The table after a load -/

/-- C8: after a load that returns a table (or whose host list is empty), whatever the
device's table held before, the table of the device holds exactly one entry per host entry,
in host order, the i-th with the name and size of the i-th host entry and null-address
entries verbatim; the returned table spans all of them; the tables of the other devices are
unchanged. -/
theorem C8_table_rebuilt (dev : AtmiDevice) (sz : Nat) (D : RTLDeviceInfoTy)
    (K : List KernelTy) (id : Nat) (image : tgt_device_image)
    (hid : id < D.FuncGblEntries.length)
    (hok : (tgt_rtl_load_binary dev sz D K id image).1 ≠ none ∨ image.Entries = []) :
    List.Forall₂ Resolves image.Entries
      ((tgt_rtl_load_binary dev sz D K id image).2.1.entriesOf id) ∧
    (∀ T, (tgt_rtl_load_binary dev sz D K id image).1 = some T →
      T = ⟨some 0, some image.Entries.length⟩) ∧
    (∀ j, j ≠ id →
      (tgt_rtl_load_binary dev sz D K id image).2.1.FuncGblEntries[j]? =
        D.FuncGblEntries[j]?) ∧
    (tgt_rtl_load_binary dev sz D K id image).2.1.FuncGblEntries.length =
      D.FuncGblEntries.length := by
  obtain ⟨added, extra, T, h1, -, h3, h4, -, h6, -⟩ := load_binary_spec dev sz D K id image hid
  have hlen : added.length = image.Entries.length := by
    rcases hok with hok | hok
    · exact (h6 hok).1
    · rw [hok] at h3 ⊢
      simpa using h3
  rw [h1, entriesOf_set D id T added hid]
  rw [hlen, List.take_length] at h4
  refine ⟨?_, ?_, ?_, ?_⟩
  · exact h4.imp (fun e a ⟨n, ks, h⟩ => loadEntry_resolves dev id n e a ks h)
  · intro T' hT'
    have := (h6 (by rw [hT']; simp)).2
    rw [hT', hlen] at this
    exact Option.some.inj this
  · intro j hj
    simp only []
    rw [List.getElem?_set_ne (Ne.symm hj)]
  · simp

/-- C8 on two loads in a row on the same device: after the second load only the entries of
the second image are in the table. -/
theorem C8_table_rebuilt_witness :
    List.Forall₂ Resolves [⟨AddrTy.raw 8192, "second", 0⟩]
      ((tgt_rtl_load_binary ⟨fun _ _ => none, fun _ => none, fun _ => true⟩ 12
        (tgt_rtl_load_binary ⟨fun _ _ => none, fun _ => none, fun _ => true⟩ 12
          (RTLDeviceInfoTy.init 1 none none) [] 0
          ⟨some ⟨Elf_Kind.ELF_K_ELF, some 224, none⟩,
            [⟨AddrTy.raw 4096, "first", 0⟩, ⟨AddrTy.raw 0, "marker", 0⟩]⟩).2.1
        [⟨"first", 0⟩] 0
        ⟨some ⟨Elf_Kind.ELF_K_ELF, some 224, none⟩,
          [⟨AddrTy.raw 8192, "second", 0⟩]⟩).2.1.entriesOf 0) :=
  (C8_table_rebuilt ⟨fun _ _ => none, fun _ => none, fun _ => true⟩ 12
    (tgt_rtl_load_binary ⟨fun _ _ => none, fun _ => none, fun _ => true⟩ 12
      (RTLDeviceInfoTy.init 1 none none) [] 0
      ⟨some ⟨Elf_Kind.ELF_K_ELF, some 224, none⟩,
        [⟨AddrTy.raw 4096, "first", 0⟩, ⟨AddrTy.raw 0, "marker", 0⟩]⟩).2.1
    [⟨"first", 0⟩] 0
    ⟨some ⟨Elf_Kind.ELF_K_ELF, some 224, none⟩, [⟨AddrTy.raw 8192, "second", 0⟩]⟩
    (by decide) (Or.inl (by decide))).1

/-! ## Invalid execution mode -/

/-- C9: when the host list holds a kernel entry `k` (non-null address, size zero) whose
`<name>_exec_mode` symbol is found with size 1 and the byte read from it is neither 0 nor 1
as an `int8_t`, `__tgt_rtl_load_binary` returns null, the kernel list only grows, no kernel
record with the name of `k` is appended to it, and the device's table holds no
kernel entry with that name and no entry for `k` or a later host entry. -/
theorem C9_invalid_exec_mode_fails (dev : AtmiDevice) (sz : Nat) (D : RTLDeviceInfoTy)
    (K : List KernelTy) (id : Nat) (image : tgt_device_image)
    (pre post : List tgt_offload_entry) (k : tgt_offload_entry) (ptr varsize b : Nat)
    (hid : id < D.FuncGblEntries.length)
    (hes : image.Entries = pre ++ k :: post)
    (haddr : k.addr ≠ AddrTy.raw 0) (hsize : k.size = 0)
    (hsym : dev.symbol_info id (k.name ++ "_exec_mode") = some (ptr, varsize))
    (hone : toUInt32 varsize = 1)
    (hread : dev.memcpy_d2h ptr = some b)
    (hval : toInt8 b ≠ 0 ∧ toInt8 b ≠ 1) :
    (tgt_rtl_load_binary dev sz D K id image).1 = none ∧
    K <+: (tgt_rtl_load_binary dev sz D K id image).2.2 ∧
    (∀ r ∈ (tgt_rtl_load_binary dev sz D K id image).2.2.drop K.length, r.Func ≠ k.name) ∧
    (∀ a ∈ (tgt_rtl_load_binary dev sz D K id image).2.1.entriesOf id,
      ∀ i, a.addr = AddrTy.kernel i → a.name ≠ k.name) ∧
    ((tgt_rtl_load_binary dev sz D K id image).2.1.entriesOf id).length ≤ pre.length := by
  have hfail : ∀ n, loadEntry dev id n k = none := by
    intro n
    have hv : toInt8 (b : Int) < 0 ∨ toInt8 (b : Int) > 1 := by omega
    simp [loadEntry, haddr, hsize, hsym, hone, hread, hv]
  obtain ⟨added, extra, T, h1, h2, -, h4, h5, -, h7⟩ :=
    load_binary_spec dev sz D K id image hid
  obtain ⟨hnone, hlen, -⟩ := h7 pre k post hes hfail
  rw [h1, entriesOf_set D id T added hid, h2]
  refine ⟨hnone, List.prefix_append K extra, ?_, ?_, hlen⟩
  · intro r hr
    rw [List.drop_left] at hr
    obtain ⟨e, n, a, ks, -, hl, hrk⟩ := h5 r hr
    obtain ⟨hf, hk⟩ := loadEntry_kernel dev id n e a ks hl
    obtain ⟨-, -, -, hmode⟩ := hk (Or.inl ⟨r, hrk⟩)
    intro hname
    rw [hf r hrk] at hname
    rw [hname] at hmode
    rcases hmode ptr varsize b hsym hone hread with h0 | h0
    · exact hval.1 h0
    · exact hval.2 h0
  · intro a ha i hi hname
    obtain ⟨e, -, n, ks, hl⟩ := forall₂_mem_right h4 ha
    obtain ⟨-, hk⟩ := loadEntry_kernel dev id n e a ks hl
    obtain ⟨hn, -, -, hmode⟩ := hk (Or.inr ⟨i, hi⟩)
    rw [← hn, hname] at hmode
    rcases hmode ptr varsize b hsym hone hread with h0 | h0
    · exact hval.1 h0
    · exact hval.2 h0

/-- C9 at the spec's example: the `_exec_mode` byte of the only kernel is 2; the load
returns null and leaves the kernel list and the table empty. -/
theorem C9_invalid_exec_mode_fails_witness :
    (tgt_rtl_load_binary ⟨fun _ _ => some (4096, 1), fun _ => some 2, fun _ => true⟩ 12
        (RTLDeviceInfoTy.init 1 none none) [] 0
        ⟨some ⟨Elf_Kind.ELF_K_ELF, some 224, none⟩, [⟨AddrTy.raw 8192, "k", 0⟩]⟩).1 = none ∧
      ((tgt_rtl_load_binary ⟨fun _ _ => some (4096, 1), fun _ => some 2, fun _ => true⟩ 12
        (RTLDeviceInfoTy.init 1 none none) [] 0
        ⟨some ⟨Elf_Kind.ELF_K_ELF, some 224, none⟩,
          [⟨AddrTy.raw 8192, "k", 0⟩]⟩).2.1.entriesOf 0).length ≤ 0 :=
  have h := C9_invalid_exec_mode_fails
    ⟨fun _ _ => some (4096, 1), fun _ => some 2, fun _ => true⟩ 12
    (RTLDeviceInfoTy.init 1 none none) [] 0
    ⟨some ⟨Elf_Kind.ELF_K_ELF, some 224, none⟩, [⟨AddrTy.raw 8192, "k", 0⟩]⟩
    [] [] ⟨AddrTy.raw 8192, "k", 0⟩ 4096 1 2 (by decide) rfl (by decide) rfl rfl
    (by decide) rfl (by decide)
  ⟨h.1, h.2.2.2.2⟩

/-! ## Default team count after initialisation -/

/-- C10, as stated, fails: with `OMP_NUM_TEAMS=1000` and every hardware query failing, the
group ceiling is 512, the override 1000 exceeds it, and the default team count becomes the
ceiling 512, not `min(128, 512) = 128`. -/
theorem C10_counterexample :
    vget (tgt_rtl_init_device ⟨none, none, none⟩
        (RTLDeviceInfoTy.init 1 none (some 1000)) 0).2.NumTeams 0 = 512 ∧
      vget (tgt_rtl_init_device ⟨none, none, none⟩
        (RTLDeviceInfoTy.init 1 none (some 1000)) 0).2.GroupsPerDevice 0 = 512 ∧
      (RTLDeviceInfoTy.init 1 none (some 1000)).EnvNumTeams = 1000 ∧
      ¬ ((1000 : Int) ≤ 512) ∧ min (128 : Int) 512 ≠ 512 := by
  decide

/-- C10, amended: after `__tgt_rtl_init_device` on a device whose resulting thread limit
`ThreadsPerGroup[id]` is at least 128, the default team count `NumTeams[id]` is the
environment override clamped to the group ceiling, `min(EnvNumTeams, GroupsPerDevice[id])`,
when the override is positive, and `min(128, GroupsPerDevice[id])` otherwise. -/
theorem C10_default_team_count_init (agent : HsaAgentInfo) (D : RTLDeviceInfoTy) (id : Nat)
    (hs : D.Sized) (hid : id < D.NumberOfDevices)
    (hT : 128 ≤ vget (tgt_rtl_init_device agent D id).2.ThreadsPerGroup id) :
    vget (tgt_rtl_init_device agent D id).2.NumTeams id =
      if D.EnvNumTeams > 0 then
        min D.EnvNumTeams (vget (tgt_rtl_init_device agent D id).2.GroupsPerDevice id)
      else min 128 (vget (tgt_rtl_init_device agent D id).2.GroupsPerDevice id) := by
  rw [init_NumTeams_eq agent D id hs hid]
  simp only [min_def]
  split_ifs <;> omega

/-- C10 (amended) at a device with 4 compute units and `OMP_NUM_TEAMS=1000`: the default
team count is 4. -/
theorem C10_default_team_count_init_witness :
    vget (tgt_rtl_init_device ⟨some 4, none, none⟩
      (RTLDeviceInfoTy.init 1 none (some 1000)) 0).2.NumTeams 0 = 4 :=
  C10_default_team_count_init ⟨some 4, none, none⟩ (RTLDeviceInfoTy.init 1 none (some 1000)) 0
    (by decide) (by decide) (by decide)

/-! ## Default thread count after initialisation -/

/-- C11 fails on the code: with 4 compute units and a queried maximum work-group dimension
of 64, `__tgt_rtl_init_device` leaves the thread limit 64 but the default thread count
`NumThreads[0]` at 128, not at `min(128, 64) = 64`; and the thread-count clamp of line 453
overwrites the default team count `NumTeams[0]`, which was `min(128, 4) = 4`, with 64. -/
theorem C11_thread_clamp_hits_NumTeams :
    vget (tgt_rtl_init_device ⟨some 4, some 64, some 64⟩
        (RTLDeviceInfoTy.init 1 none none) 0).2.ThreadsPerGroup 0 = 64 ∧
      vget (tgt_rtl_init_device ⟨some 4, some 64, some 64⟩
        (RTLDeviceInfoTy.init 1 none none) 0).2.NumThreads 0 = 128 ∧
      vget (tgt_rtl_init_device ⟨some 4, some 64, some 64⟩
        (RTLDeviceInfoTy.init 1 none none) 0).2.GroupsPerDevice 0 = 4 ∧
      vget (tgt_rtl_init_device ⟨some 4, some 64, some 64⟩
        (RTLDeviceInfoTy.init 1 none none) 0).2.NumTeams 0 = 64 ∧
      min (128 : Int) 64 ≠ 128 ∧ min (128 : Int) 4 ≠ 64 := by
  decide

/-! ## The argument-size vector -/

/-- Storing `p` in the slots `0 .. k - 1` of a vector, one after the other. -/
theorem foldl_set_range (p : Nat) (k : Nat) (v : List Nat) :
    ((List.range k).foldl (fun v i => v.set i p) v).length = v.length ∧
    ∀ j (h1 : j < ((List.range k).foldl (fun v i => v.set i p) v).length) (h2 : j < v.length),
      ((List.range k).foldl (fun v i => v.set i p) v)[j] = if j < k then p else v[j] := by
  induction k with
  | zero => simp
  | succ k ih =>
    obtain ⟨hl, hg⟩ := ih
    rw [List.range_succ, List.foldl_append]
    simp only [List.foldl_cons, List.foldl_nil, List.length_set]
    refine ⟨hl, ?_⟩
    intro j h1 h2
    by_cases hjk : k = j
    · subst hjk
      simp
    · rw [List.getElem_set_ne hjk, hg j (by rw [hl]; exact h2) h2]
      by_cases hlt : j < k
      · simp [hlt, Nat.lt_succ_of_lt hlt]
      · have : ¬ j < k + 1 := by omega
        simp [hlt, this]

/-- After the loop every slot of `arg_sizes` holds the pointer size. -/
theorem arg_sizes_loop_eq (p n : Nat) : arg_sizes_loop p n = List.replicate n p := by
  obtain ⟨hl, hg⟩ := foldl_set_range p n (List.replicate n 0)
  unfold arg_sizes_loop
  apply List.ext_getElem
  · rw [hl]; simp
  · intro j h1 h2
    have hj : j < n := by simpa using h2
    rw [hg j h1 (by simpa using hj)]
    simp [hj]

/-- Overwriting the last slot. -/
theorem replicate_set_last (p q n : Nat) (hn : 1 ≤ n) :
    (List.replicate n p).set (n - 1) q = List.replicate (n - 1) p ++ [q] := by
  apply List.ext_getElem
  · simp; omega
  · intro j h1 h2
    by_cases hj : n - 1 = j
    · subst hj
      simp
    · have hlt : j < n - 1 := by
        simp at h2
        omega
      rw [List.getElem_set_ne hj, List.getElem_append_left (by simpa using hlt)]
      simp

/-- With at least one argument the write of line 768 is in bounds and `arg_sizes` ends
with the `int`-sized slot. -/
theorem arg_sizes_of_pos (sizeof_ptr sizeof_int : Nat) (n : Nat) (hn : n ≤ 2147483647)
    (h : 1 ≤ n) :
    arg_sizes sizeof_ptr sizeof_int (n : Int) =
      some (List.replicate (n - 1) sizeof_ptr ++ [sizeof_int]) := by
  have hidx : sentinel_index (n : Int) = (n : Int) - 1 := by
    simp only [sentinel_index, toUInt64, toInt32]
    omega
  have hlen : (arg_sizes_loop sizeof_ptr n).length = n := by
    rw [arg_sizes_loop_eq]; simp
  have hnn : ¬ ((n : Int) < 0) := by omega
  have hlt : sentinel_index (n : Int) < ((arg_sizes_loop sizeof_ptr n).length : Int) := by
    rw [hlen, hidx]; omega
  have htn : ((n : Int) - 1).toNat = n - 1 := by omega
  simp only [arg_sizes, hnn, if_false, Int.toNat_ofNat, hlt, if_true]
  rw [hidx, htn, arg_sizes_loop_eq, replicate_set_last _ _ _ h]

/-! ## The status of a launch -/

/-- C12, as stated, fails: on an initialised device, a launch of an SPMD kernel with two
arguments whose submission to the accelerator runtime fails still returns
`OFFLOAD_SUCCESS`, which is not `OFFLOAD_FAIL`. -/
theorem C12_counterexample :
    (tgt_rtl_run_target_team_region (fun _ => false) 8 4
        (tgt_rtl_init_device ⟨none, none, none⟩ (RTLDeviceInfoTy.init 1 none none) 0).2
        0 ⟨"kernel", SPMD⟩ 2 0 0 1000).map Prod.fst = some OFFLOAD_SUCCESS ∧
      OFFLOAD_SUCCESS ≠ OFFLOAD_FAIL := by
  decide

/-- C12, amended: called with at least one argument, and when the group count is computed
(no division by zero), `__tgt_rtl_run_target_team_region` returns `OFFLOAD_SUCCESS`
whatever the result of the launch submission is: the status and the submitted launch do
not depend on that result. -/
theorem C12_status_ignores_submission (atmi_task_launch : LaunchTy → Bool)
    (sizeof_ptr sizeof_int : Nat) (D : RTLDeviceInfoTy) (id : Nat) (K : KernelTy)
    (arg_count team_num thread_limit : Int) (loop_tripcount : Nat)
    (h1 : 1 ≤ arg_count) (h2 : arg_count ≤ 2147483647)
    (hng : num_groups D id K team_num thread_limit loop_tripcount ≠ none) :
    (tgt_rtl_run_target_team_region atmi_task_launch sizeof_ptr sizeof_int D id K arg_count
        team_num thread_limit loop_tripcount).map Prod.fst = some OFFLOAD_SUCCESS ∧
    ∀ other : LaunchTy → Bool,
      tgt_rtl_run_target_team_region other sizeof_ptr sizeof_int D id K arg_count
          team_num thread_limit loop_tripcount =
        tgt_rtl_run_target_team_region atmi_task_launch sizeof_ptr sizeof_int D id K
          arg_count team_num thread_limit loop_tripcount := by
  refine ⟨?_, fun _ => rfl⟩
  have hcast : arg_count = ((arg_count.toNat : Nat) : Int) := by omega
  have hsz := arg_sizes_of_pos sizeof_ptr sizeof_int arg_count.toNat (by omega) (by omega)
  rw [← hcast] at hsz
  obtain ⟨g, hg⟩ := Option.ne_none_iff_exists'.mp hng
  simp only [tgt_rtl_run_target_team_region, hsz, hg, Option.map_some']

/-- C12 (amended) at a launch whose submission fails: the status is `OFFLOAD_SUCCESS`. -/
theorem C12_status_ignores_submission_witness :
    (tgt_rtl_run_target_team_region (fun _ => false) 8 4
        (tgt_rtl_init_device ⟨none, none, none⟩ (RTLDeviceInfoTy.init 1 none none) 0).2
        0 ⟨"kernel", GENERIC⟩ 3 0 0 0).map Prod.fst = some OFFLOAD_SUCCESS :=
  (C12_status_ignores_submission (fun _ => false) 8 4
    (tgt_rtl_init_device ⟨none, none, none⟩ (RTLDeviceInfoTy.init 1 none none) 0).2
    0 ⟨"kernel", GENERIC⟩ 3 0 0 0 (by decide) (by decide) (by decide)).1

/-! ## Null result of the loader -/

/-- The pointer `__tgt_rtl_load_binary` returns. -/
theorem load_binary_fst (dev : AtmiDevice) (sz : Nat) (D : RTLDeviceInfoTy)
    (K : List KernelTy) (id : Nat) (image : tgt_device_image)
    (hid : id < D.FuncGblEntries.length) :
    (tgt_rtl_load_binary dev sz D K id image).1 =
      if hardError dev sz id image ∨ image.Entries = [] then none
      else some ⟨some 0, some image.Entries.length⟩ := by
  rcases Option.eq_none_or_eq_some (loadHeader image) with hh | ⟨useBrig, hh⟩
  · rw [if_pos (Or.inl (show hardError dev sz id image from Or.inl hh))]
    simp only [tgt_rtl_load_binary, hh]
  · have hid0 : id < (D.clearOffloadEntriesTable id).FuncGblEntries.length := by
      simp [RTLDeviceInfoTy.clearOffloadEntriesTable, hid]
    obtain ⟨added, extra, h1, -, -, -, -, h6, -⟩ :=
      loadEntries_spec dev id image.Entries (D.clearOffloadEntriesTable id) K hid0
    have hfst := loadEntries_fst dev id image.Entries (D.clearOffloadEntriesTable id) K
    rw [clear_then D id added hid] at h1
    rcases hr : loadEntries dev id image.Entries (D.clearOffloadEntriesTable id) K with
      ⟨ok, D1, K1⟩
    rw [hr] at h1 h6 hfst
    simp only at h1 h6 hfst
    cases ok with
    | false =>
      have hex : ∃ e ∈ image.Entries, loadEntry dev id 0 e = none := by
        by_contra hne
        push_neg at hne
        exact absurd (hfst.mpr hne) (by simp)
      rw [if_pos (Or.inl (show hardError dev sz id image from Or.inr (Or.inl hex)))]
      simp only [tgt_rtl_load_binary, hh, hr]
    | true =>
      have hall := hfst.mp rfl
      have hnex : ¬ ∃ e ∈ image.Entries, loadEntry dev id 0 e = none := by
        rintro ⟨e, he, h0⟩
        exact hall e he h0
      have hlen := h6 rfl
      cases henv : sendDeviceEnvironment dev sz id with
      | false =>
        rw [if_pos (Or.inl (show hardError dev sz id image from Or.inr (Or.inr henv)))]
        simp only [tgt_rtl_load_binary, hh, hr, henv, Bool.not_false, if_true]
      | true =>
        have hnh : ¬ hardError dev sz id image := by
          unfold hardError
          rw [hh, henv]
          simp [hnex]
        simp only [tgt_rtl_load_binary, hh, hr, henv, Bool.not_true, Bool.false_eq_true,
          if_false]
        rw [h1, getOffloadEntriesTable_set D id _ added hid]
        by_cases h0 : image.Entries = []
        · have ha : added.length = 0 := by rw [hlen, h0]; rfl
          rw [if_pos (Or.inr h0), if_pos ha]
        · have ha : ¬ added.length = 0 := by
            rw [hlen]
            intro hz
            exact h0 (List.length_eq_zero.mp hz)
          rw [if_neg ha, if_neg (show ¬ (hardError dev sz id image ∨ image.Entries = []) by tauto),
            hlen]

/-- C13, as stated, fails: a load of an image with a supported header and an empty host
entry list, on a device without the environment symbol, meets no hard error and returns
null, the value it returns on failure. -/
theorem C13_counterexample :
    (tgt_rtl_load_binary ⟨fun _ _ => none, fun _ => none, fun _ => true⟩ 12
        (RTLDeviceInfoTy.init 1 none none) [] 0
        ⟨some ⟨Elf_Kind.ELF_K_ELF, some 224, none⟩, []⟩).1 = none ∧
      ¬ hardError ⟨fun _ _ => none, fun _ => none, fun _ => true⟩ 12 0
        ⟨some ⟨Elf_Kind.ELF_K_ELF, some 224, none⟩, []⟩ := by
  decide

/-- C13, amended: `__tgt_rtl_load_binary` returns null exactly when a hard error is met or
the host entry list is empty; a load that meets no hard error returns the table spanning
all the host entries when there is at least one, and null, as on failure, when there is
none. -/
theorem C13_null_iff (dev : AtmiDevice) (sz : Nat) (D : RTLDeviceInfoTy)
    (K : List KernelTy) (id : Nat) (image : tgt_device_image)
    (hid : id < D.FuncGblEntries.length) :
    ((tgt_rtl_load_binary dev sz D K id image).1 = none ↔
      hardError dev sz id image ∨ image.Entries = []) ∧
    (¬ hardError dev sz id image → image.Entries ≠ [] →
      (tgt_rtl_load_binary dev sz D K id image).1 =
        some ⟨some 0, some image.Entries.length⟩) ∧
    (¬ hardError dev sz id image → image.Entries = [] →
      (tgt_rtl_load_binary dev sz D K id image).1 = none) := by
  rw [load_binary_fst dev sz D K id image hid]
  refine ⟨?_, ?_, ?_⟩
  · split_ifs with h
    · simp [h]
    · simp [h]
  · intro h1 h2
    rw [if_neg (by tauto)]
  · intro _ h2
    rw [if_pos (Or.inr h2)]

/-- C13 (amended) at an image with one kernel entry and no hard error: the one-entry table
is returned. -/
theorem C13_null_iff_witness :
    (tgt_rtl_load_binary ⟨fun _ _ => none, fun _ => none, fun _ => true⟩ 12
        (RTLDeviceInfoTy.init 1 none none) [] 0
        ⟨some ⟨Elf_Kind.ELF_K_ELF, some 224, none⟩, [⟨AddrTy.raw 4096, "k", 0⟩]⟩).1 =
      some ⟨some 0, some 1⟩ :=
  (C13_null_iff ⟨fun _ _ => none, fun _ => none, fun _ => true⟩ 12
    (RTLDeviceInfoTy.init 1 none none) [] 0
    ⟨some ⟨Elf_Kind.ELF_K_ELF, some 224, none⟩, [⟨AddrTy.raw 4096, "k", 0⟩]⟩
    (by decide)).2.1 (by decide) (by decide)

/-! ## Idempotence of the initialisation -/

/-- C14: with the same outcome of the three hardware queries and the same environment
overrides, running `__tgt_rtl_init_device` on device `id` a second time leaves the registry
exactly as the first run left it, so the five descriptor fields of `id` are the same; and
the first run leaves the five fields of every other device `j` as they were. -/
theorem C14_init_device_idempotent (agent : HsaAgentInfo) (D : RTLDeviceInfoTy) (id : Nat) :
    (tgt_rtl_init_device agent (tgt_rtl_init_device agent D id).2 id).2 =
        (tgt_rtl_init_device agent D id).2 ∧
      (tgt_rtl_init_device agent (tgt_rtl_init_device agent D id).2 id).1 =
        (tgt_rtl_init_device agent D id).1 ∧
      ∀ j, j ≠ id →
        vget (tgt_rtl_init_device agent D id).2.GroupsPerDevice j = vget D.GroupsPerDevice j ∧
        vget (tgt_rtl_init_device agent D id).2.ThreadsPerGroup j = vget D.ThreadsPerGroup j ∧
        vget (tgt_rtl_init_device agent D id).2.WavefrontSize j = vget D.WavefrontSize j ∧
        vget (tgt_rtl_init_device agent D id).2.NumTeams j = vget D.NumTeams j ∧
        vget (tgt_rtl_init_device agent D id).2.NumThreads j = vget D.NumThreads j := by
  refine ⟨?_, rfl, ?_⟩
  · simp only [tgt_rtl_init_device, vset, List.set_set]
  · intro j hj
    simp only [tgt_rtl_init_device, vget_vset_ne _ _ _ _ (Ne.symm hj), and_self]

/-- C14 on a two-device registry: the second run on device 1 changes nothing, and device 0
keeps the group limit the constructor gave it. -/
theorem C14_init_device_idempotent_witness :
    vget (tgt_rtl_init_device ⟨some 4, some 64, none⟩
        (RTLDeviceInfoTy.init 2 (some 2) none) 1).2.GroupsPerDevice 0 =
      vget (RTLDeviceInfoTy.init 2 (some 2) none).GroupsPerDevice 0 :=
  ((C14_init_device_idempotent ⟨some 4, some 64, none⟩
    (RTLDeviceInfoTy.init 2 (some 2) none) 1).2.2 0 (by decide)).1

/-! ## The divisor of the trip-count computation -/

/-- C15: after `__tgt_rtl_init_device` the thread limit of the device is in `1 .. 1024`,
and for an SPMD kernel and every requested thread limit the threads-per-group value is at
least 1, is not zero as the `uint64_t` divisor of line 821, and the group count is
computed (no division by zero) for every team count and trip count. -/
theorem C15_divisor_positive (agent : HsaAgentInfo) (D : RTLDeviceInfoTy) (id : Nat)
    (K : KernelTy) (team_num thread_limit : Int) (loop_tripcount : Nat)
    (hs : D.Sized) (hid : id < D.NumberOfDevices) (hK : K.ExecutionMode = SPMD) :
    (1 ≤ vget (tgt_rtl_init_device agent D id).2.ThreadsPerGroup id ∧
      vget (tgt_rtl_init_device agent D id).2.ThreadsPerGroup id ≤ 1024) ∧
    1 ≤ threadsPerGroup (tgt_rtl_init_device agent D id).2 id K thread_limit ∧
    threadsPerGroup (tgt_rtl_init_device agent D id).2 id K thread_limit ≤ 1024 ∧
    toUInt64 (threadsPerGroup (tgt_rtl_init_device agent D id).2 id K thread_limit) ≠ 0 ∧
    num_groups (tgt_rtl_init_device agent D id).2 id K team_num thread_limit
      loop_tripcount ≠ none := by
  have hT := init_ThreadsPerGroup_bounds agent D id (by rw [hs.2.2.1]; exact hid)
  have hN := init_NumThreads_eq agent D id (by rw [hs.2.2.2.2.2]; exact hid)
  generalize (tgt_rtl_init_device agent D id).2 = D' at hT hN ⊢
  have hne : ¬ K.ExecutionMode = GENERIC := by rw [hK]; decide
  have hp : 1 ≤ threadsPerGroup D' id K thread_limit ∧
      threadsPerGroup D' id K thread_limit ≤ 1024 := by
    unfold threadsPerGroup
    simp only [hne, if_false, hN]
    split_ifs <;> omega
  have hz : toUInt64 (threadsPerGroup D' id K thread_limit) ≠ 0 := by
    simp only [toUInt64]; omega
  refine ⟨hT, hp.1, hp.2, hz, ?_⟩
  unfold num_groups
  simp only [hK, if_true, hz, if_false]
  split_ifs <;> simp

/-- C15 on a device whose queried work-group dimension is 1: an SPMD kernel gets one
thread per group, a divisor that is not zero. -/
theorem C15_divisor_positive_witness :
    1 ≤ threadsPerGroup (tgt_rtl_init_device ⟨none, some 1, none⟩
        (RTLDeviceInfoTy.init 1 none none) 0).2 0 ⟨"kernel", SPMD⟩ 0 :=
  (C15_divisor_positive ⟨none, some 1, none⟩ (RTLDeviceInfoTy.init 1 none none) 0
    ⟨"kernel", SPMD⟩ 0 0 640 (by decide) (by decide) rfl).2.1

/-! ## The sentinel slot of the argument-size vector -/

/-- C16: for an argument count `n >= 0` (an `int32_t`), the vector `arg_sizes` has length
`n` after the loop; the index `n - 1` of the write of line 768 is inside the vector exactly
when `n >= 1`; when `n >= 1` the vector ends up with the pointer size in every slot before
the last and `sizeof(int)` in the last; when `n = 0` the write is out of bounds. -/
theorem C16_arg_sizes (sizeof_ptr sizeof_int : Nat) (n : Nat) (hn : n ≤ 2147483647) :
    (arg_sizes_loop sizeof_ptr n).length = n ∧
    (sentinel_index (n : Int) < ((arg_sizes_loop sizeof_ptr n).length : Int) ↔ 1 ≤ n) ∧
    (1 ≤ n →
      arg_sizes sizeof_ptr sizeof_int (n : Int) =
        some (List.replicate (n - 1) sizeof_ptr ++ [sizeof_int])) ∧
    (n = 0 → arg_sizes sizeof_ptr sizeof_int (n : Int) = none) := by
  have hlen : (arg_sizes_loop sizeof_ptr n).length = n := by
    rw [arg_sizes_loop_eq]; simp
  have hidx : 1 ≤ n → sentinel_index (n : Int) = (n : Int) - 1 := by
    intro h
    simp only [sentinel_index, toUInt64, toInt32]
    omega
  have hidx0 : n = 0 → sentinel_index (n : Int) = 18446744073709551615 := by
    intro h
    subst h
    decide
  refine ⟨hlen, ?_, ?_, ?_⟩
  · rw [hlen]
    constructor
    · intro h
      by_contra h0
      have hz : n = 0 := by omega
      rw [hidx0 hz] at h
      omega
    · intro h
      rw [hidx h]
      omega
  · intro h
    exact arg_sizes_of_pos sizeof_ptr sizeof_int n hn h
  · intro h
    have hnn : ¬ ((n : Int) < 0) := by omega
    have hge : ¬ sentinel_index (n : Int) < ((arg_sizes_loop sizeof_ptr n).length : Int) := by
      rw [hlen, hidx0 h]; omega
    simp only [arg_sizes, hnn, if_false, Int.toNat_ofNat, hge]

/-- C16 at three arguments: two pointer-sized slots and the final `int`-sized one. -/
theorem C16_arg_sizes_witness : arg_sizes 8 4 (3 : Nat) = some [8, 8, 4] :=
  (C16_arg_sizes 8 4 3 (by decide)).2.2.1 (by decide)

end HsaRtl
